import Mathlib

/-!
Shallow embedding of `trading_strategies.py` (algo-trading-website).

The source is a pandas/numpy program.  We embed it as follows:

* A pandas column (a float Series) is a `List PFloat`, where `PFloat` models an
  IEEE double restricted to the values that actually arise: an exact rational,
  `+inf`, `-inf`, or `NaN` (pandas uses NaN both for missing warm-up values and
  for 0/0).  Arithmetic and comparisons follow IEEE semantics (comparisons with
  NaN are false, x/0 is a signed infinity for x ≠ 0, 0/0 is NaN).  Signed zeros
  are not modelled: the program never produces a negative zero along the paths
  of interest.
* A DataFrame is an association list from column names to columns (`Frame`).
  Python mutates frames in place; the embedding returns the updated frame, which
  in Python is the *same object* as the argument.
* The float square root (numpy `sqrt`, used by `rolling().std()` and by the
  annualization factor) is not rational-valued, so it is passed as an explicit
  function parameter `sqrtf : ℚ → ℚ`; no claim depends on its values.
-/

/-- A pandas/numpy float cell: a finite rational, an infinity, or NaN. -/
inductive PFloat where
  | val : ℚ → PFloat
  | pinf : PFloat
  | minf : PFloat
  | nan : PFloat
deriving DecidableEq

namespace PFloat

/-- IEEE negation. -/
def neg : PFloat → PFloat
  | val q => val (-q)
  | pinf => minf
  | minf => pinf
  | nan => nan

/-- IEEE addition (inf + (-inf) = NaN, NaN absorbs). -/
def add : PFloat → PFloat → PFloat
  | nan, _ => nan
  | _, nan => nan
  | pinf, minf => nan
  | minf, pinf => nan
  | pinf, _ => pinf
  | _, pinf => pinf
  | minf, _ => minf
  | _, minf => minf
  | val a, val b => val (a + b)

/-- IEEE subtraction. -/
def sub (a b : PFloat) : PFloat := a.add b.neg

/-- IEEE multiplication (0 × inf = NaN, NaN absorbs). -/
def mul : PFloat → PFloat → PFloat
  | nan, _ => nan
  | _, nan => nan
  | val a, val b => val (a * b)
  | pinf, val b => if 0 < b then pinf else if b < 0 then minf else nan
  | val a, pinf => if 0 < a then pinf else if a < 0 then minf else nan
  | minf, val b => if 0 < b then minf else if b < 0 then pinf else nan
  | val a, minf => if 0 < a then minf else if a < 0 then pinf else nan
  | pinf, pinf => pinf
  | pinf, minf => minf
  | minf, pinf => minf
  | minf, minf => pinf

/-- IEEE division (x/0 is a signed infinity for x ≠ 0, 0/0 and inf/inf are
NaN, finite/inf is 0; negative zeros are not modelled). -/
def div : PFloat → PFloat → PFloat
  | nan, _ => nan
  | _, nan => nan
  | val a, val b =>
      if b = 0 then (if 0 < a then pinf else if a < 0 then minf else nan)
      else val (a / b)
  | val _, pinf => val 0
  | val _, minf => val 0
  | pinf, val b => if 0 ≤ b then pinf else minf
  | minf, val b => if 0 ≤ b then minf else pinf
  | pinf, pinf => nan
  | pinf, minf => nan
  | minf, pinf => nan
  | minf, minf => nan

/-- IEEE strict less-than; any comparison involving NaN is false. -/
def ltb : PFloat → PFloat → Bool
  | nan, _ => false
  | _, nan => false
  | val a, val b => decide (a < b)
  | val _, pinf => true
  | pinf, _ => false
  | minf, val _ => true
  | minf, pinf => true
  | minf, minf => false
  | val _, minf => false

/-- IEEE less-or-equal; any comparison involving NaN is false. -/
def leb : PFloat → PFloat → Bool
  | nan, _ => false
  | _, nan => false
  | val a, val b => decide (a ≤ b)
  | val _, pinf => true
  | pinf, pinf => true
  | pinf, val _ => false
  | pinf, minf => false
  | minf, _ => true
  | val _, minf => false

/-- IEEE strict greater-than. -/
def gtb (a b : PFloat) : Bool := ltb b a

/-- IEEE greater-or-equal. -/
def geb (a b : PFloat) : Bool := leb b a

end PFloat

/-- Element access into a column; out-of-range reads (which do not occur for
aligned columns of one frame) give NaN. -/
def pget (xs : List PFloat) (i : ℕ) : PFloat := xs.getD i PFloat.nan

/-- Build a column of length `n` from an index function (a vectorized pandas
Series operation). -/
def colFn (n : ℕ) (g : ℕ → PFloat) : List PFloat := (List.range n).map g

/-- numpy-style sum of a column (NaN propagates). -/
def psum (xs : List PFloat) : PFloat := xs.foldl PFloat.add (PFloat.val 0)

/-- `Series.rolling(window=w).mean()`: NaN until a full window is available,
then the window mean (NaN inputs propagate). -/
def rollingMean (xs : List PFloat) (w : ℕ) : List PFloat :=
  colFn xs.length (fun i =>
    if 0 < w ∧ w ≤ i + 1 then
      PFloat.div (psum ((xs.drop (i + 1 - w)).take w)) (PFloat.val w)
    else PFloat.nan)

/-- Rational mean of a list. -/
def ratMean (qs : List ℚ) : ℚ := qs.sum / qs.length

/-- Rational sample variance (`ddof = 1`, the pandas `rolling().std()`
convention); callers guarantee `qs.length ≥ 2`. -/
def sampleVar (qs : List ℚ) : ℚ :=
  (qs.map (fun x => (x - ratMean qs) ^ 2)).sum / (qs.length - 1 : ℚ)

/-- Extract the rational of a finite cell (0 for non-finite; used only after
checking finiteness). -/
def toRat : PFloat → ℚ
  | PFloat.val q => q
  | _ => 0

/-- Finiteness test for a cell. -/
def isVal : PFloat → Bool
  | PFloat.val _ => true
  | _ => false

/-- `Series.rolling(window=w).std()` (sample std): NaN until a full window of
at least two finite values is available; `sqrtf` models the float square
root. -/
def rollingStd (sqrtf : ℚ → ℚ) (xs : List PFloat) (w : ℕ) : List PFloat :=
  colFn xs.length (fun i =>
    if 1 < w ∧ w ≤ i + 1 then
      let win := (xs.drop (i + 1 - w)).take w
      if win.all isVal then PFloat.val (sqrtf (sampleVar (win.map toRat)))
      else PFloat.nan
    else PFloat.nan)

/-- `Series.diff()`: first element NaN, then successive differences. -/
def pdiff (xs : List PFloat) : List PFloat :=
  colFn xs.length (fun i =>
    if i = 0 then PFloat.nan else PFloat.sub (pget xs i) (pget xs (i - 1)))

/-- `Series.shift(k)`: the first `k` cells become NaN. -/
def pshift (xs : List PFloat) (k : ℕ) : List PFloat :=
  colFn xs.length (fun i => if i < k then PFloat.nan else pget xs (i - k))

/-- `Series.pct_change(periods=k)`: `(x[i] − x[i−k]) / x[i−k]`, NaN for the
first `k` cells. -/
def pctChange (xs : List PFloat) (k : ℕ) : List PFloat :=
  colFn xs.length (fun i =>
    if i < k then PFloat.nan
    else PFloat.div (PFloat.sub (pget xs i) (pget xs (i - k))) (pget xs (i - k)))

/-- `Series.ewm(span, adjust=False).mean()` recurrence value at index `i`:
seeded with the first cell, `e[t] = α·x[t] + (1−α)·e[t−1]`, α = 2/(span+1). -/
def ewmRec (xs : List PFloat) (a : ℚ) : ℕ → PFloat
  | 0 => pget xs 0
  | i + 1 =>
      PFloat.add (PFloat.mul (PFloat.val a) (pget xs (i + 1)))
        (PFloat.mul (PFloat.val (1 - a)) (ewmRec xs a i))

/-- `Series.ewm(span=s, adjust=False).mean()` as a column. -/
def ewmMean (xs : List PFloat) (s : ℚ) : List PFloat :=
  colFn xs.length (ewmRec xs (2 / (s + 1)))

/-- Elementwise sum of two aligned columns. -/
def colAdd (xs ys : List PFloat) : List PFloat :=
  colFn xs.length (fun i => PFloat.add (pget xs i) (pget ys i))

/-- Elementwise difference of two aligned columns. -/
def colSub (xs ys : List PFloat) : List PFloat :=
  colFn xs.length (fun i => PFloat.sub (pget xs i) (pget ys i))

/-- Elementwise quotient of two aligned columns. -/
def colDiv (xs ys : List PFloat) : List PFloat :=
  colFn xs.length (fun i => PFloat.div (pget xs i) (pget ys i))

/-- Column × scalar. -/
def colSmul (xs : List PFloat) (c : ℚ) : List PFloat :=
  colFn xs.length (fun i => PFloat.mul (pget xs i) (PFloat.val c))

/-- `data.loc[mask, col] = v`: overwrite masked cells with the scalar `v`. -/
def locSet (mask : ℕ → Bool) (v : ℚ) (xs : List PFloat) : List PFloat :=
  colFn xs.length (fun i => if mask i then PFloat.val v else pget xs i)

/-- A DataFrame: an association list from column names to columns.  Python
mutates the frame in place; here the mutated frame is the return value (the
same object as the argument, in Python terms). -/
def Frame : Type := List (String × List PFloat)

/-- Read a column (empty for a missing name). -/
def getCol (f : Frame) (k : String) : List PFloat := (f.lookup k).getD []

/-- `data[k] = v`: replace the column if present, else append it. -/
def setCol : Frame → String → List PFloat → Frame
  | [], k, v => [(k, v)]
  | (k', v') :: rest, k, v =>
      if k' = k then (k, v) :: rest else (k', v') :: setCol rest k v

/-- Column-name membership. -/
def hasCol (f : Frame) (k : String) : Bool := (f.lookup k).isSome

/-- A strategy-parameter dict: names to numeric values (Python `Dict`). -/
def Params : Type := List (String × ℚ)

/-- `params.get(key, default)`, with `params is None` defaulting exactly as the
source's default dicts do (every default dict entry coincides with the
corresponding `.get` default). -/
def getParam (ps : Option Params) (k : String) (d : ℚ) : ℚ :=
  ((ps.getD []).lookup k).getD d

/-- Interpret a numeric parameter as a window length (all uses pass natural
numbers). -/
def asWindow (q : ℚ) : ℕ := (Int.toNat ⌊q⌋)

/-! ## Strategy Engine (`TradingStrategies`) -/

/-- The RSI column exactly as computed in `mean_reversion` / `rsi_divergence`:
`delta = Close.diff()`, `gain = delta.where(delta > 0, 0)` rolling-averaged,
`loss = (-delta.where(delta < 0, 0))` rolling-averaged, `rs = gain/loss`,
`rsi = 100 − 100/(1 + rs)`. -/
def rsiGain (close : List PFloat) : List PFloat :=
  colFn close.length (fun i =>
    let d := pget (pdiff close) i
    if PFloat.gtb d (PFloat.val 0) then d else PFloat.val 0)

/-- The negated losses column `-delta.where(delta < 0, 0)`. -/
def rsiLoss (close : List PFloat) : List PFloat :=
  colFn close.length (fun i =>
    let d := pget (pdiff close) i
    PFloat.neg (if PFloat.ltb d (PFloat.val 0) then d else PFloat.val 0))

/-- `rs = avgGain / avgLoss` (elementwise float division: `x/0` is `+inf` for
`x > 0`, `0/0` is NaN). -/
def rsiRs (close : List PFloat) (period : ℕ) : List PFloat :=
  colDiv (rollingMean (rsiGain close) period) (rollingMean (rsiLoss close) period)

/-- `rsi = 100 − 100/(1 + rs)`. -/
def rsiCol (close : List PFloat) (period : ℕ) : List PFloat :=
  colFn close.length (fun i =>
    PFloat.sub (PFloat.val 100)
      (PFloat.div (PFloat.val 100)
        (PFloat.add (PFloat.val 1) (pget (rsiRs close period) i))))

/-- `TradingStrategies.moving_average_crossover`: adds `fast_ma`, `slow_ma`,
`signal`, `position` columns to the frame (in place in Python) and returns the
mutated frame. -/
def moving_average_crossover (data : Frame) (params : Option Params) : Frame :=
  let fast := asWindow (getParam params "fast_period" 10)
  let slow := asWindow (getParam params "slow_period" 20)
  let close := getCol data "Close"
  let n := close.length
  let fastMA := rollingMean close fast
  let slowMA := rollingMean close slow
  let d1 := setCol data "fast_ma" fastMA
  let d2 := setCol d1 "slow_ma" slowMA
  let d3 := setCol d2 "signal" (colFn n (fun _ => PFloat.val 0))
  let d4 := setCol d3 "position" (colFn n (fun _ => PFloat.val 0))
  let sig1 := locSet (fun i => PFloat.gtb (pget fastMA i) (pget slowMA i)) 1
    (getCol d4 "signal")
  let d5 := setCol d4 "signal" sig1
  let sig2 := locSet (fun i => PFloat.ltb (pget fastMA i) (pget slowMA i)) (-1)
    (getCol d5 "signal")
  let d6 := setCol d5 "signal" sig2
  setCol d6 "position" (pdiff sig2)

/-- `TradingStrategies.mean_reversion` (Bollinger bands + RSI). -/
def mean_reversion (sqrtf : ℚ → ℚ) (data : Frame) (params : Option Params) : Frame :=
  let bbPeriod := asWindow (getParam params "bb_period" 20)
  let bbStd := getParam params "bb_std" 2
  let rsiPeriod := asWindow (getParam params "rsi_period" 14)
  let rsiOverbought := getParam params "rsi_overbought" 70
  let rsiOversold := getParam params "rsi_oversold" 30
  let close := getCol data "Close"
  let n := close.length
  let middle := rollingMean close bbPeriod
  let stdCol := rollingStd sqrtf close bbPeriod
  let upper := colAdd middle (colSmul stdCol bbStd)
  let lower := colSub middle (colSmul stdCol bbStd)
  let rsi := rsiCol close rsiPeriod
  let d1 := setCol data "bb_middle" middle
  let d2 := setCol d1 "bb_std" stdCol
  let d3 := setCol d2 "bb_upper" upper
  let d4 := setCol d3 "bb_lower" lower
  let d5 := setCol d4 "rsi" rsi
  let d6 := setCol d5 "signal" (colFn n (fun _ => PFloat.val 0))
  let buyMask := fun i =>
    PFloat.leb (pget close i) (pget (colSmul lower (101/100)) i) &&
    PFloat.leb (pget rsi i) (PFloat.val rsiOversold)
  let sig1 := locSet buyMask 1 (getCol d6 "signal")
  let d7 := setCol d6 "signal" sig1
  let sellMask := fun i =>
    PFloat.geb (pget close i) (pget (colSmul upper (99/100)) i) &&
    PFloat.geb (pget rsi i) (PFloat.val rsiOverbought)
  let sig2 := locSet sellMask (-1) (getCol d7 "signal")
  let d8 := setCol d7 "signal" sig2
  setCol d8 "position" (pdiff sig2)

/-- `TradingStrategies.momentum`. -/
def momentum (data : Frame) (params : Option Params) : Frame :=
  let lookback := asWindow (getParam params "lookback_period" 20)
  let threshold := getParam params "threshold" (1/20)
  let close := getCol data "Close"
  let n := close.length
  let mom := pctChange close lookback
  let d1 := setCol data "momentum" mom
  let d2 := setCol d1 "signal" (colFn n (fun _ => PFloat.val 0))
  let sig1 := locSet (fun i => PFloat.gtb (pget mom i) (PFloat.val threshold)) 1
    (getCol d2 "signal")
  let d3 := setCol d2 "signal" sig1
  let sig2 := locSet (fun i => PFloat.ltb (pget mom i) (PFloat.val (-threshold))) (-1)
    (getCol d3 "signal")
  let d4 := setCol d3 "signal" sig2
  setCol d4 "position" (pdiff sig2)

/-- `TradingStrategies.bollinger_bands`. -/
def bollinger_bands (sqrtf : ℚ → ℚ) (data : Frame) (params : Option Params) : Frame :=
  let period := asWindow (getParam params "period" 20)
  let stdMult := getParam params "std" 2
  let close := getCol data "Close"
  let n := close.length
  let middle := rollingMean close period
  let stdCol := rollingStd sqrtf close period
  let upper := colAdd middle (colSmul stdCol stdMult)
  let lower := colSub middle (colSmul stdCol stdMult)
  let d1 := setCol data "bb_middle" middle
  let d2 := setCol d1 "bb_std" stdCol
  let d3 := setCol d2 "bb_upper" upper
  let d4 := setCol d3 "bb_lower" lower
  let d5 := setCol d4 "bb_width" (colDiv (colSub upper lower) middle)
  let d6 := setCol d5 "signal" (colFn n (fun _ => PFloat.val 0))
  let sig1 := locSet (fun i => PFloat.leb (pget close i) (pget lower i)) 1
    (getCol d6 "signal")
  let d7 := setCol d6 "signal" sig1
  let sig2 := locSet (fun i => PFloat.geb (pget close i) (pget upper i)) (-1)
    (getCol d7 "signal")
  let d8 := setCol d7 "signal" sig2
  setCol d8 "position" (pdiff sig2)

/-- `TradingStrategies.rsi_divergence`. -/
def rsi_divergence (data : Frame) (params : Option Params) : Frame :=
  let period := asWindow (getParam params "period" 14)
  let divergencePeriod := asWindow (getParam params "divergence_period" 20)
  let close := getCol data "Close"
  let n := close.length
  let rsi := rsiCol close period
  let d1 := setCol data "rsi" rsi
  let d2 := setCol d1 "price_ma" (rollingMean close divergencePeriod)
  let d3 := setCol d2 "rsi_ma" (rollingMean rsi divergencePeriod)
  let d4 := setCol d3 "signal" (colFn n (fun _ => PFloat.val 0))
  let bullish := fun i =>
    PFloat.ltb (pget close i) (pget (pshift close divergencePeriod) i) &&
    PFloat.gtb (pget rsi i) (pget (pshift rsi divergencePeriod) i) &&
    PFloat.ltb (pget rsi i) (PFloat.val 40)
  let sig1 := locSet bullish 1 (getCol d4 "signal")
  let d5 := setCol d4 "signal" sig1
  let bearish := fun i =>
    PFloat.gtb (pget close i) (pget (pshift close divergencePeriod) i) &&
    PFloat.ltb (pget rsi i) (pget (pshift rsi divergencePeriod) i) &&
    PFloat.gtb (pget rsi i) (PFloat.val 60)
  let sig2 := locSet bearish (-1) (getCol d5 "signal")
  let d6 := setCol d5 "signal" sig2
  setCol d6 "position" (pdiff sig2)

/-- `TradingStrategies.macd_crossover`. -/
def macd_crossover (data : Frame) (params : Option Params) : Frame :=
  let fast := getParam params "fast" 12
  let slow := getParam params "slow" 26
  let sigSpan := getParam params "signal" 9
  let close := getCol data "Close"
  let n := close.length
  let exp1 := ewmMean close fast
  let exp2 := ewmMean close slow
  let macd := colSub exp1 exp2
  let macdSignal := ewmMean macd sigSpan
  let d1 := setCol data "macd" macd
  let d2 := setCol d1 "macd_signal" macdSignal
  let d3 := setCol d2 "macd_histogram" (colSub macd macdSignal)
  let d4 := setCol d3 "signal" (colFn n (fun _ => PFloat.val 0))
  let buyMask := fun i =>
    PFloat.gtb (pget macd i) (pget macdSignal i) &&
    PFloat.leb (pget (pshift macd 1) i) (pget (pshift macdSignal 1) i)
  let sig1 := locSet buyMask 1 (getCol d4 "signal")
  let d5 := setCol d4 "signal" sig1
  let sellMask := fun i =>
    PFloat.ltb (pget macd i) (pget macdSignal i) &&
    PFloat.geb (pget (pshift macd 1) i) (pget (pshift macdSignal 1) i)
  let sig2 := locSet sellMask (-1) (getCol d5 "signal")
  let d6 := setCol d5 "signal" sig2
  setCol d6 "position" (pdiff sig2)

/-- `TradingStrategies.execute_strategy`: dispatch over the six fixed
identifiers; an unknown identifier raises `ValueError` before any strategy
runs (so the frame is untouched in that case). -/
def execute_strategy (sqrtf : ℚ → ℚ) (strategy_name : String) (data : Frame)
    (params : Option Params) : Except String Frame :=
  if strategy_name = "moving-average-crossover" then
    Except.ok (moving_average_crossover data params)
  else if strategy_name = "mean-reversion" then
    Except.ok (mean_reversion sqrtf data params)
  else if strategy_name = "momentum" then
    Except.ok (momentum data params)
  else if strategy_name = "bollinger-bands" then
    Except.ok (bollinger_bands sqrtf data params)
  else if strategy_name = "rsi-divergence" then
    Except.ok (rsi_divergence data params)
  else if strategy_name = "macd-crossover" then
    Except.ok (macd_crossover data params)
  else
    Except.error ("策略 " ++ strategy_name ++ " 不存在")

/-- The six recognized strategy identifiers (the keys of
`TradingStrategies.strategies`). -/
def strategyIds : List String :=
  ["moving-average-crossover", "mean-reversion", "momentum",
   "bollinger-bands", "rsi-divergence", "macd-crossover"]

/-! ## Backtest Simulator (`BacktestExecutor.execute_backtest`) -/

/-- Trade side. -/
inductive Side where
  | buy : Side
  | sell : Side
deriving DecidableEq

/-- The alternating partner of a side. -/
def Side.other : Side → Side
  | Side.buy => Side.sell
  | Side.sell => Side.buy

/-- A trade record.  `amount` is the `cost` key for a BUY and the `proceeds`
key for a SELL; `date` is the bar index standing in for the timestamp. -/
structure Trade where
  date : ℕ
  side : Side
  shares : ℤ
  price : ℚ
  amount : ℚ
  capital : ℚ
deriving DecidableEq

/-- A per-bar position record. -/
structure PosRec where
  date : ℕ
  shares : ℤ
  price : ℚ
  equity : ℚ
  capital : ℚ
  market_value : ℚ
deriving DecidableEq

/-- Backtest configuration (`config` dict with its defaults). -/
structure SimCfg where
  initial_capital : ℚ := 100000
  commission : ℚ := 1/1000
  slippage : ℚ := 1/2000
deriving DecidableEq

/-- Simulator accumulator plus the lists appended to during the loop. -/
structure SimState where
  capital : ℚ
  shares : ℤ
  trades : List Trade
  equity : List ℚ
  positions : List PosRec
deriving DecidableEq

/-- Python `int()` applied to a rational: truncation toward zero. -/
def pyInt (q : ℚ) : ℤ := if 0 ≤ q then ⌊q⌋ else ⌈q⌉

/-- One iteration of the backtest loop at bar `i` with `(close, signal)` pair
`b`: trade per the signal, then append the mark-to-market equity and the
position record. -/
def stepBar (cfg : SimCfg) (i : ℕ) (st : SimState) (b : ℚ × ℤ) : SimState :=
  let price := b.1
  let st1 :=
    if b.2 = 1 ∧ st.shares = 0 then
      let shares_to_buy := pyInt (st.capital * (95/100) / price)
      if 0 < shares_to_buy then
        let cost := (shares_to_buy : ℚ) * price * (1 + cfg.commission + cfg.slippage)
        let cap' := st.capital - cost
        { st with
          capital := cap'
          shares := shares_to_buy
          trades := st.trades ++
            [⟨i, Side.buy, shares_to_buy, price, cost, cap' + (shares_to_buy : ℚ) * price⟩] }
      else st
    else if b.2 = -1 ∧ 0 < st.shares then
      let proceeds := (st.shares : ℚ) * price * (1 - cfg.commission - cfg.slippage)
      let cap' := st.capital + proceeds
      { st with
        capital := cap'
        shares := 0
        trades := st.trades ++ [⟨i, Side.sell, st.shares, price, proceeds, cap'⟩] }
    else st
  let eq := st1.capital + (st1.shares : ℚ) * price
  { st1 with
    equity := st1.equity ++ [eq]
    positions := st1.positions ++
      [⟨i, st1.shares, price, eq, st1.capital, (st1.shares : ℚ) * price⟩] }

/-- The backtest loop (`for i in range(len(signals))`), starting at bar index
`i`. -/
def runLoop (cfg : SimCfg) : ℕ → SimState → List (ℚ × ℤ) → SimState
  | _, st, [] => st
  | i, st, b :: bs => runLoop cfg (i + 1) (stepBar cfg i st b) bs

/-- The simulator's initial state: `capital = initial_capital`, `shares = 0`,
empty trade/position logs, equity seeded with the initial capital. -/
def initState (cfg : SimCfg) : SimState :=
  ⟨cfg.initial_capital, 0, [], [cfg.initial_capital], []⟩

/-- The simulator state after processing the first `k` bars of `signals`. -/
def simAfter (cfg : SimCfg) (signals : List (ℚ × ℤ)) (k : ℕ) : SimState :=
  runLoop cfg 0 (initState cfg) (signals.take k)

/-- The state after the loop and the forced terminal liquidation: if shares
remain, sell everything at `data['Close'].iloc[-1]` with the usual proceeds
formula, appending a terminal SELL trade (the equity curve is not touched). -/
def liquidate (cfg : SimCfg) (dataCloses : List ℚ) (signals : List (ℚ × ℤ))
    (st : SimState) : SimState :=
  if 0 < st.shares then
    let final_price := dataCloses.getLastD 0
    let proceeds := (st.shares : ℚ) * final_price * (1 - cfg.commission - cfg.slippage)
    { st with
      capital := st.capital + proceeds
      shares := 0
      trades := st.trades ++
        [⟨signals.length, Side.sell, st.shares, final_price, proceeds,
          st.capital + proceeds⟩] }
  else st

/-! ## Performance Analyzer (`BacktestExecutor.calculate_performance_metrics`) -/

/-- Daily returns: `np.diff(equity) / equity[:-1]`. -/
def dailyReturns (equity : List ℚ) : List ℚ :=
  (List.range (equity.length - 1)).map
    (fun i => (equity.getD (i + 1) 0 - equity.getD i 0) / equity.getD i 0)

/-- `np.mean` (the empty case, `NaN` in numpy, does not arise in the claims;
division by a zero length yields 0 in ℚ). -/
def npMean (qs : List ℚ) : ℚ := qs.sum / qs.length

/-- The square of `np.std` (population variance, `ddof = 0`). -/
def npVarPop (qs : List ℚ) : ℚ := npMean (qs.map (fun x => (x - npMean qs) ^ 2))

/-- `volatility = np.std(daily_returns) * np.sqrt(252)`, with the float square
root modelled by `sqrtf`. -/
def annVolatility (sqrtf : ℚ → ℚ) (dr : List ℚ) : ℚ :=
  sqrtf (npVarPop dr) * sqrtf 252

/-- Running-maximum drawdown column `(equity − peak) / peak` with
`peak = np.maximum.accumulate(equity)`. -/
def drawdowns (equity : List ℚ) : List ℚ :=
  (List.range equity.length).map (fun i =>
    let peak := ((equity.take (i + 1)).foldl max (equity.getD 0 0))
    (equity.getD i 0 - peak) / peak)

/-- `max_drawdown = np.min(drawdown)` (0 for the empty curve, which does not
arise: the curve is seeded with the initial capital). -/
def maxDrawdownOf (equity : List ℚ) : ℚ :=
  match drawdowns equity with
  | [] => 0
  | d :: ds => ds.foldl min d

/-- `downside_deviation = np.std(negative_returns) if len(negative_returns)
> 0 else 0`. -/
def downsideDevOf (sqrtf : ℚ → ℚ) (dr : List ℚ) : ℚ :=
  let negative_returns := dr.filter (fun r => r < 0)
  if 0 < negative_returns.length then sqrtf (npVarPop negative_returns) else 0

/-- `win_rate`: winning SELLs (positive proceeds) over all SELLs, 0 when there
are none. -/
def winRateOf (trades : List Trade) : ℚ :=
  let sell_trades := trades.filter (fun t => t.side = Side.sell)
  let winning_trades := (sell_trades.filter (fun t => 0 < t.amount)).length
  let total_trades := sell_trades.length
  if 0 < total_trades then (winning_trades : ℚ) / (total_trades : ℚ) else 0

/-- The `'summary'` sub-dict (percentage-scaled entries scaled as in the
source). -/
structure Summary where
  initial_capital : ℚ
  final_capital : ℚ
  total_return : ℚ
  absolute_return : ℚ
  sharpe_ratio : ℚ
  sortino_ratio : ℚ
  calmar_ratio : ℚ
  max_drawdown : ℚ
  volatility : ℚ
  win_rate : ℚ
  total_trades : ℕ
deriving DecidableEq

/-- The `'metrics'` sub-dict (raw, unscaled values). -/
structure MetricsRec where
  sharpe_ratio : ℚ
  sortino_ratio : ℚ
  calmar_ratio : ℚ
  max_drawdown : ℚ
  volatility : ℚ
  win_rate : ℚ
deriving DecidableEq

/-- The full dict returned by `calculate_performance_metrics`. -/
structure PerfResult where
  summary : Summary
  equity : List ℚ
  trades : List Trade
  positions : List PosRec
  daily_returns : List ℚ
  metrics : MetricsRec
deriving DecidableEq

/-- `BacktestExecutor.calculate_performance_metrics`. -/
def calculate_performance_metrics (sqrtf : ℚ → ℚ) (equity : List ℚ)
    (trades : List Trade) (positions : List PosRec) (cfg : SimCfg) : PerfResult :=
  let initial_capital := cfg.initial_capital
  let final_capital := equity.getLastD 0
  let total_return := (final_capital - initial_capital) / initial_capital
  let absolute_return := final_capital - initial_capital
  let daily_returns := dailyReturns equity
  let mean_return := npMean daily_returns
  let volatility := annVolatility sqrtf daily_returns
  let sharpe_ratio := if 0 < volatility then mean_return * 252 / volatility else 0
  let max_drawdown := maxDrawdownOf equity
  let downside_deviation := downsideDevOf sqrtf daily_returns
  let sortino_ratio :=
    if 0 < downside_deviation then mean_return * 252 / downside_deviation else 0
  let calmar_ratio :=
    if max_drawdown ≠ 0 then (total_return * 252 / 365) / |max_drawdown| else 0
  let win_rate := winRateOf trades
  let total_trades := (trades.filter (fun t => t.side = Side.sell)).length
  { summary :=
      { initial_capital := initial_capital
        final_capital := final_capital
        total_return := total_return * 100
        absolute_return := absolute_return
        sharpe_ratio := sharpe_ratio
        sortino_ratio := sortino_ratio
        calmar_ratio := calmar_ratio
        max_drawdown := max_drawdown * 100
        volatility := volatility * 100
        win_rate := win_rate * 100
        total_trades := total_trades }
    equity := equity
    trades := trades
    positions := positions
    daily_returns := daily_returns
    metrics :=
      { sharpe_ratio := sharpe_ratio
        sortino_ratio := sortino_ratio
        calmar_ratio := calmar_ratio
        max_drawdown := max_drawdown
        volatility := volatility
        win_rate := win_rate } }

/-- `BacktestExecutor.execute_backtest`: run the loop over the signal rows
(`(close, signal)` pairs), force the terminal liquidation, and reduce to
metrics. -/
def execute_backtest (sqrtf : ℚ → ℚ) (dataCloses : List ℚ)
    (signals : List (ℚ × ℤ)) (cfg : SimCfg) : PerfResult :=
  let st := runLoop cfg 0 (initState cfg) signals
  let st' := liquidate cfg dataCloses signals st
  calculate_performance_metrics sqrtf st'.equity st'.trades st'.positions cfg

/-! ## Basic lemmas about the column and frame operations -/

theorem length_colFn (n : ℕ) (g : ℕ → PFloat) : (colFn n g).length = n := by
  simp [colFn]

theorem getElem?_range_eq (n i : ℕ) :
    (List.range n)[i]? = if i < n then some i else none := by
  by_cases h : i < n
  · simp [List.getElem?_range h, h]
  · rw [if_neg h, List.getElem?_eq_none]
    simpa using Nat.le_of_not_lt h

theorem pget_colFn (n : ℕ) (g : ℕ → PFloat) (i : ℕ) :
    pget (colFn n g) i = if i < n then g i else PFloat.nan := by
  rw [pget, colFn, List.getD_eq_getElem?_getD, List.getElem?_map, getElem?_range_eq]
  by_cases h : i < n <;> simp [h]

theorem pget_colFn_lt {n : ℕ} {g : ℕ → PFloat} {i : ℕ} (h : i < n) :
    pget (colFn n g) i = g i := by
  rw [pget_colFn, if_pos h]

theorem length_rollingMean (xs : List PFloat) (w : ℕ) :
    (rollingMean xs w).length = xs.length := length_colFn ..

theorem length_locSet (m : ℕ → Bool) (v : ℚ) (xs : List PFloat) :
    (locSet m v xs).length = xs.length := length_colFn ..

theorem getCol_setCol (f : Frame) (k k' : String) (v : List PFloat) :
    getCol (setCol f k v) k' = if k = k' then v else getCol f k' := by
  induction f with
  | nil =>
      simp only [setCol, getCol, List.lookup]
      by_cases h : k = k'
      · subst h; simp
      · have hb : (k' == k) = false := beq_eq_false_iff_ne.mpr (Ne.symm h)
        simp [hb, h]
  | cons hd tl ih =>
      obtain ⟨k0, v0⟩ := hd
      simp only [setCol]
      by_cases h0 : k0 = k
      · subst h0
        simp only [if_pos rfl, getCol, List.lookup]
        by_cases h : k0 = k'
        · subst h; simp
        · have hb : (k' == k0) = false := beq_eq_false_iff_ne.mpr (Ne.symm h)
          simp [hb, h]
      · rw [if_neg h0]
        simp only [getCol, List.lookup]
        by_cases h : k0 = k'
        · subst h
          have hk : ¬ k = k0 := fun hc => h0 hc.symm
          simp [hk]
        · have hb : (k' == k0) = false := beq_eq_false_iff_ne.mpr (Ne.symm h)
          simp only [hb]
          simpa [getCol] using ih

/-- NaN never compares less-than. -/
theorem ltb_nan_left (x : PFloat) : PFloat.ltb PFloat.nan x = false := by
  cases x <;> rfl

theorem ltb_nan_right (x : PFloat) : PFloat.ltb x PFloat.nan = false := by
  cases x <;> rfl

theorem leb_nan_left (x : PFloat) : PFloat.leb PFloat.nan x = false := by
  cases x <;> rfl

theorem leb_nan_right (x : PFloat) : PFloat.leb x PFloat.nan = false := by
  cases x <;> rfl

theorem gtb_nan_left (x : PFloat) : PFloat.gtb PFloat.nan x = false := ltb_nan_right x

theorem gtb_nan_right (x : PFloat) : PFloat.gtb x PFloat.nan = false := ltb_nan_left x

theorem geb_nan_left (x : PFloat) : PFloat.geb PFloat.nan x = false := leb_nan_right x

theorem geb_nan_right (x : PFloat) : PFloat.geb x PFloat.nan = false := leb_nan_left x

/-- Warm-up cells of a rolling mean are NaN. -/
theorem rollingMean_warmup {xs : List PFloat} {w i : ℕ} (h : i + 1 < w) :
    pget (rollingMean xs w) i = PFloat.nan := by
  rw [rollingMean, pget_colFn]
  by_cases hi : i < xs.length
  · rw [if_pos hi, if_neg]
    rintro ⟨-, hw⟩
    exact absurd h (Nat.not_lt_of_le hw)
  · rw [if_neg hi]

/-- Out-of-range cells of a rolling mean are NaN. -/
theorem rollingMean_oob {xs : List PFloat} {w i : ℕ} (h : ¬ i < xs.length) :
    pget (rollingMean xs w) i = PFloat.nan := by
  rw [rollingMean, pget_colFn, if_neg]
  simpa using h

theorem pget_locSet {m : ℕ → Bool} {v : ℚ} {xs : List PFloat} {i : ℕ} (h : i < xs.length) :
    pget (locSet m v xs) i = if m i then PFloat.val v else pget xs i := by
  rw [locSet, pget_colFn_lt h]

theorem add_nan (x : PFloat) : PFloat.add x PFloat.nan = PFloat.nan := by
  cases x <;> rfl

theorem nan_add (x : PFloat) : PFloat.add PFloat.nan x = PFloat.nan := by
  cases x <;> rfl

theorem sub_nan (x : PFloat) : PFloat.sub x PFloat.nan = PFloat.nan := by
  cases x <;> rfl

theorem nan_sub (x : PFloat) : PFloat.sub PFloat.nan x = PFloat.nan := by
  cases x <;> rfl

theorem mul_nan (x : PFloat) : PFloat.mul x PFloat.nan = PFloat.nan := by
  cases x <;> rfl

theorem nan_mul (x : PFloat) : PFloat.mul PFloat.nan x = PFloat.nan := by
  cases x <;> rfl

theorem div_nan (x : PFloat) : PFloat.div x PFloat.nan = PFloat.nan := by
  cases x <;> rfl

theorem nan_div (x : PFloat) : PFloat.div PFloat.nan x = PFloat.nan := by
  cases x <;> rfl

theorem pshift_warmup {xs : List PFloat} {k i : ℕ} (h : i < k) :
    pget (pshift xs k) i = PFloat.nan := by
  rw [pshift, pget_colFn]
  by_cases hi : i < xs.length
  · rw [if_pos hi, if_pos h]
  · rw [if_neg hi]

theorem pctChange_warmup {xs : List PFloat} {k i : ℕ} (h : i < k) :
    pget (pctChange xs k) i = PFloat.nan := by
  rw [pctChange, pget_colFn]
  by_cases hi : i < xs.length
  · rw [if_pos hi, if_pos h]
  · rw [if_neg hi]

theorem rollingStd_warmup (sqrtf : ℚ → ℚ) {xs : List PFloat} {w i : ℕ} (h : i + 1 < w) :
    pget (rollingStd sqrtf xs w) i = PFloat.nan := by
  rw [rollingStd, pget_colFn]
  by_cases hi : i < xs.length
  · rw [if_pos hi, if_neg]
    rintro ⟨-, hw⟩
    exact absurd h (Nat.not_lt_of_le hw)
  · rw [if_neg hi]

/-- During the RSI warm-up window the RSI cell is NaN. -/
theorem rsi_warmup {close : List PFloat} {period i : ℕ} (h : i + 1 < period) :
    pget (rsiCol close period) i = PFloat.nan := by
  rw [rsiCol, pget_colFn]
  by_cases hi : i < close.length
  · rw [if_pos hi]
    have hrs : pget (rsiRs close period) i = PFloat.nan := by
      rw [rsiRs, colDiv]
      have hlen : (rollingMean (rsiGain close) period).length = close.length := by
        rw [length_rollingMean, rsiGain, length_colFn]
      rw [hlen, pget_colFn_lt hi, rollingMean_warmup h, nan_div]
    rw [hrs, add_nan, div_nan, sub_nan]
  · rw [if_neg hi]

/-- Elementwise characterization of the `signal` column produced by
`moving_average_crossover`: the later `.loc` write (the SELL mask) wins, then
the BUY mask, else the default 0. -/
theorem mac_signal_elem (data : Frame) (params : Option Params) (i : ℕ)
    (hi : i < (getCol data "Close").length) :
    pget (getCol (moving_average_crossover data params) "signal") i =
      (let close := getCol data "Close"
       let fastMA := rollingMean close (asWindow (getParam params "fast_period" 10))
       let slowMA := rollingMean close (asWindow (getParam params "slow_period" 20))
       if PFloat.ltb (pget fastMA i) (pget slowMA i) then PFloat.val (-1)
       else if PFloat.gtb (pget fastMA i) (pget slowMA i) then PFloat.val 1
       else PFloat.val 0) := by
  simp only [moving_average_crossover, getCol_setCol]
  norm_num
  rw [if_neg (show ¬ ("position" = "signal") by decide)]
  rw [pget_locSet (by rw [length_locSet, length_colFn]; exact hi),
      pget_locSet (by rw [length_colFn]; exact hi),
      pget_colFn_lt hi]

theorem pget_colAdd {xs ys : List PFloat} {i : ℕ} (h : i < xs.length) :
    pget (colAdd xs ys) i = PFloat.add (pget xs i) (pget ys i) := by
  rw [colAdd, pget_colFn_lt h]

theorem pget_colSub {xs ys : List PFloat} {i : ℕ} (h : i < xs.length) :
    pget (colSub xs ys) i = PFloat.sub (pget xs i) (pget ys i) := by
  rw [colSub, pget_colFn_lt h]

theorem pget_colSmul {xs : List PFloat} {c : ℚ} {i : ℕ} (h : i < xs.length) :
    pget (colSmul xs c) i = PFloat.mul (pget xs i) (PFloat.val c) := by
  rw [colSmul, pget_colFn_lt h]

theorem length_colAdd (xs ys : List PFloat) : (colAdd xs ys).length = xs.length :=
  length_colFn ..

theorem length_colSub (xs ys : List PFloat) : (colSub xs ys).length = xs.length :=
  length_colFn ..

theorem length_colSmul (xs : List PFloat) (c : ℚ) : (colSmul xs c).length = xs.length :=
  length_colFn ..

theorem mr_signal_elem (sqrtf : ℚ → ℚ) (data : Frame) (params : Option Params) (i : ℕ)
    (hi : i < (getCol data "Close").length) :
    pget (getCol (mean_reversion sqrtf data params) "signal") i =
      (let close := getCol data "Close"
       let bbPeriod := asWindow (getParam params "bb_period" 20)
       let bbStd := getParam params "bb_std" 2
       let rsiPeriod := asWindow (getParam params "rsi_period" 14)
       let middle := rollingMean close bbPeriod
       let stdCol := rollingStd sqrtf close bbPeriod
       let upper := colAdd middle (colSmul stdCol bbStd)
       let lower := colSub middle (colSmul stdCol bbStd)
       let rsi := rsiCol close rsiPeriod
       if PFloat.geb (pget close i) (pget (colSmul upper (99/100)) i) &&
           PFloat.geb (pget rsi i) (PFloat.val (getParam params "rsi_overbought" 70)) then
         PFloat.val (-1)
       else if PFloat.leb (pget close i) (pget (colSmul lower (101/100)) i) &&
           PFloat.leb (pget rsi i) (PFloat.val (getParam params "rsi_oversold" 30)) then
         PFloat.val 1
       else PFloat.val 0) := by
  simp only [mean_reversion, getCol_setCol]
  norm_num
  rw [if_neg (show ¬ ("position" = "signal") by decide)]
  rw [pget_locSet (by rw [length_locSet, length_colFn]; exact hi),
      pget_locSet (by rw [length_colFn]; exact hi),
      pget_colFn_lt hi]
  simp only [Bool.and_eq_true]

theorem momentum_signal_elem (data : Frame) (params : Option Params) (i : ℕ)
    (hi : i < (getCol data "Close").length) :
    pget (getCol (momentum data params) "signal") i =
      (let close := getCol data "Close"
       let mom := pctChange close (asWindow (getParam params "lookback_period" 20))
       let threshold := getParam params "threshold" (1/20)
       if PFloat.ltb (pget mom i) (PFloat.val (-threshold)) then PFloat.val (-1)
       else if PFloat.gtb (pget mom i) (PFloat.val threshold) then PFloat.val 1
       else PFloat.val 0) := by
  simp only [momentum, getCol_setCol]
  norm_num
  rw [if_neg (show ¬ ("position" = "signal") by decide)]
  rw [pget_locSet (by rw [length_locSet, length_colFn]; exact hi),
      pget_locSet (by rw [length_colFn]; exact hi),
      pget_colFn_lt hi]

theorem bb_signal_elem (sqrtf : ℚ → ℚ) (data : Frame) (params : Option Params) (i : ℕ)
    (hi : i < (getCol data "Close").length) :
    pget (getCol (bollinger_bands sqrtf data params) "signal") i =
      (let close := getCol data "Close"
       let period := asWindow (getParam params "period" 20)
       let stdMult := getParam params "std" 2
       let middle := rollingMean close period
       let stdCol := rollingStd sqrtf close period
       let upper := colAdd middle (colSmul stdCol stdMult)
       let lower := colSub middle (colSmul stdCol stdMult)
       if PFloat.geb (pget close i) (pget upper i) then PFloat.val (-1)
       else if PFloat.leb (pget close i) (pget lower i) then PFloat.val 1
       else PFloat.val 0) := by
  simp only [bollinger_bands, getCol_setCol]
  norm_num
  rw [if_neg (show ¬ ("position" = "signal") by decide)]
  rw [pget_locSet (by rw [length_locSet, length_colFn]; exact hi),
      pget_locSet (by rw [length_colFn]; exact hi),
      pget_colFn_lt hi]

theorem rsidiv_signal_elem (data : Frame) (params : Option Params) (i : ℕ)
    (hi : i < (getCol data "Close").length) :
    pget (getCol (rsi_divergence data params) "signal") i =
      (let close := getCol data "Close"
       let period := asWindow (getParam params "period" 14)
       let dp := asWindow (getParam params "divergence_period" 20)
       let rsi := rsiCol close period
       if PFloat.gtb (pget close i) (pget (pshift close dp) i) &&
           PFloat.ltb (pget rsi i) (pget (pshift rsi dp) i) &&
           PFloat.gtb (pget rsi i) (PFloat.val 60) then PFloat.val (-1)
       else if PFloat.ltb (pget close i) (pget (pshift close dp) i) &&
           PFloat.gtb (pget rsi i) (pget (pshift rsi dp) i) &&
           PFloat.ltb (pget rsi i) (PFloat.val 40) then PFloat.val 1
       else PFloat.val 0) := by
  simp only [rsi_divergence, getCol_setCol]
  norm_num
  rw [if_neg (show ¬ ("position" = "signal") by decide)]
  rw [pget_locSet (by rw [length_locSet, length_colFn]; exact hi),
      pget_locSet (by rw [length_colFn]; exact hi),
      pget_colFn_lt hi]
  simp only [Bool.and_eq_true]

theorem macd_signal_elem (data : Frame) (params : Option Params) (i : ℕ)
    (hi : i < (getCol data "Close").length) :
    pget (getCol (macd_crossover data params) "signal") i =
      (let close := getCol data "Close"
       let macd := colSub (ewmMean close (getParam params "fast" 12))
         (ewmMean close (getParam params "slow" 26))
       let macdSignal := ewmMean macd (getParam params "signal" 9)
       if PFloat.ltb (pget macd i) (pget macdSignal i) &&
           PFloat.geb (pget (pshift macd 1) i) (pget (pshift macdSignal 1) i) then
         PFloat.val (-1)
       else if PFloat.gtb (pget macd i) (pget macdSignal i) &&
           PFloat.leb (pget (pshift macd 1) i) (pget (pshift macdSignal 1) i) then
         PFloat.val 1
       else PFloat.val 0) := by
  simp only [macd_crossover, getCol_setCol]
  norm_num
  rw [if_neg (show ¬ ("position" = "signal") by decide)]
  rw [pget_locSet (by rw [length_locSet, length_colFn]; exact hi),
      pget_locSet (by rw [length_colFn]; exact hi),
      pget_colFn_lt hi]
  simp only [Bool.and_eq_true]

/-! ## Simulator lemmas -/

theorem Side.other_other (s : Side) : s.other.other = s := by
  cases s <;> rfl

/-- Strict alternation of trade sides, expecting `s` first. -/
def altSides : Side → List Trade → Bool
  | _, [] => true
  | s, t :: ts => (t.side == s) && altSides s.other ts

theorem altSides_append (s : Side) (ts : List Trade) (t : Trade) :
    altSides s (ts ++ [t]) =
      (altSides s ts && (t.side == (if ts.length % 2 = 0 then s else s.other))) := by
  induction ts generalizing s with
  | nil => simp [altSides]
  | cons u us ih =>
      show ((u.side == s) && altSides s.other (us ++ [t])) = _
      rw [ih s.other]
      by_cases h : us.length % 2 = 0
      · have h1 : ¬ (us.length + 1) % 2 = 0 := by omega
        simp [altSides, h, h1, Bool.and_assoc]
      · have h1 : (us.length + 1) % 2 = 0 := by omega
        simp [altSides, h, h1, Side.other_other, Bool.and_assoc]

/-- The loop invariant: non-negative shares, strictly alternating trade log
starting with BUY, and trade-log parity tracking whether a position is
open. -/
def SimInv (st : SimState) : Prop :=
  0 ≤ st.shares ∧ altSides Side.buy st.trades = true ∧
    st.trades.length % 2 = (if st.shares = 0 then 0 else 1)

theorem stepBar_siminv (cfg : SimCfg) (i : ℕ) (st : SimState) (b : ℚ × ℤ)
    (h : SimInv st) : SimInv (stepBar cfg i st b) := by
  obtain ⟨h1, h2, h3⟩ := h
  by_cases hb : b.2 = 1 ∧ st.shares = 0
  · by_cases hpos : 0 < pyInt (st.capital * (95/100) / b.1)
    · have hpar : st.trades.length % 2 = 0 := by rw [h3, if_pos hb.2]
      simp only [SimInv, stepBar, if_pos hb, if_pos hpos]
      refine ⟨Int.le_of_lt hpos, ?_, ?_⟩
      · rw [altSides_append, h2, if_pos hpar]
        simp
      · rw [if_neg (by exact fun hc => absurd (hc ▸ hpos) (lt_irrefl 0))]
        simp only [List.length_append, List.length_cons, List.length_nil]
        omega
    · simp only [SimInv, stepBar, if_pos hb, if_neg hpos]
      exact ⟨h1, h2, h3⟩
  · by_cases hs : b.2 = -1 ∧ 0 < st.shares
    · have hnz : ¬ st.shares = 0 := fun hc => absurd (hc ▸ hs.2) (lt_irrefl 0)
      have hpar : st.trades.length % 2 = 1 := by rw [h3, if_neg hnz]
      simp only [SimInv, stepBar, if_neg hb, if_pos hs]
      refine ⟨le_refl 0, ?_, ?_⟩
      · rw [altSides_append, h2, if_neg (by omega)]
        simp [Side.other]
      · rw [if_pos trivial]
        simp only [List.length_append, List.length_cons, List.length_nil]
        omega
    · simp only [SimInv, stepBar, if_neg hb, if_neg hs]
      exact ⟨h1, h2, h3⟩

theorem runLoop_siminv (cfg : SimCfg) (bs : List (ℚ × ℤ)) :
    ∀ (i : ℕ) (st : SimState), SimInv st → SimInv (runLoop cfg i st bs) := by
  induction bs with
  | nil => intro i st h; exact h
  | cons b bs ih =>
      intro i st h
      exact ih (i + 1) (stepBar cfg i st b) (stepBar_siminv cfg i st b h)

theorem initState_siminv (cfg : SimCfg) : SimInv (initState cfg) := by
  exact ⟨le_refl 0, rfl, rfl⟩

theorem runLoop_append (cfg : SimCfg) (xs ys : List (ℚ × ℤ)) :
    ∀ (j : ℕ) (st : SimState),
      runLoop cfg j st (xs ++ ys) =
        runLoop cfg (j + xs.length) (runLoop cfg j st xs) ys := by
  induction xs with
  | nil => intro j st; simp [runLoop]
  | cons b bs ih =>
      intro j st
      simp only [List.cons_append, runLoop, List.length_cons, List.append_eq]
      rw [ih]
      congr 1
      omega

theorem simAfter_succ (cfg : SimCfg) (signals : List (ℚ × ℤ)) (k : ℕ)
    (hk : k < signals.length) :
    simAfter cfg signals (k + 1) =
      stepBar cfg k (simAfter cfg signals k) (signals.getD k (0, 0)) := by
  have h1 : signals[k]? = some signals[k] := List.getElem?_eq_getElem hk
  have h2 : signals.getD k (0, 0) = signals[k] := by
    rw [List.getD_eq_getElem?_getD, h1]; rfl
  rw [simAfter, simAfter, List.take_succ, h1]
  simp only [Option.toList_some]
  rw [runLoop_append]
  have hlen : (signals.take k).length = k := by
    rw [List.length_take]; omega
  rw [hlen, h2]
  simp only [Nat.zero_add, runLoop]

/-- The state of the bar loop appends exactly one mark-to-market equity value
per bar, computed from the post-trade capital and shares. -/
theorem stepBar_equity (cfg : SimCfg) (i : ℕ) (st : SimState) (b : ℚ × ℤ) :
    (stepBar cfg i st b).equity =
      st.equity ++
        [(stepBar cfg i st b).capital + ((stepBar cfg i st b).shares : ℚ) * b.1] := by
  simp only [stepBar]
  split_ifs <;> rfl

theorem runLoop_eq_simAfter (cfg : SimCfg) (signals : List (ℚ × ℤ)) :
    runLoop cfg 0 (initState cfg) signals = simAfter cfg signals signals.length := by
  rw [simAfter, List.take_length]

theorem liquidate_equity (cfg : SimCfg) (dataCloses : List ℚ)
    (signals : List (ℚ × ℤ)) (st : SimState) :
    (liquidate cfg dataCloses signals st).equity = st.equity := by
  simp only [liquidate]
  split_ifs <;> rfl

/-- Full characterization of the equity curve after `k` bars: it is the
initial capital followed by, for each processed bar, the post-trade capital
plus the post-trade shares marked to that bar's close. -/
theorem simAfter_equity (cfg : SimCfg) (signals : List (ℚ × ℤ)) :
    ∀ k, k ≤ signals.length →
      (simAfter cfg signals k).equity =
        cfg.initial_capital :: (List.range k).map (fun j =>
          (simAfter cfg signals (j + 1)).capital +
          ((simAfter cfg signals (j + 1)).shares : ℚ) * (signals.getD j (0, 0)).1) := by
  intro k
  induction k with
  | zero => intro _; rfl
  | succ k ih =>
      intro hk
      have hk' : k < signals.length := Nat.lt_of_succ_le hk
      rw [simAfter_succ cfg signals k hk', stepBar_equity, ih (Nat.le_of_lt hk'),
          List.range_succ, List.map_append, List.cons_append]
      congr 2
      simp [simAfter_succ cfg signals k hk']

/-! ## Warm-up lemmas per strategy -/

theorem warmup_mac (data : Frame) (params : Option Params) (i : ℕ)
    (hi : i < (getCol data "Close").length)
    (hw : i + 1 < asWindow (getParam params "fast_period" 10) ∨
          i + 1 < asWindow (getParam params "slow_period" 20)) :
    pget (getCol (moving_average_crossover data params) "signal") i = PFloat.val 0 := by
  rw [mac_signal_elem data params i hi]
  rcases hw with hw | hw
  · simp [rollingMean_warmup hw, ltb_nan_left, gtb_nan_left]
  · simp [rollingMean_warmup hw, ltb_nan_right, gtb_nan_right]

theorem warmup_mr (sqrtf : ℚ → ℚ) (data : Frame) (params : Option Params) (i : ℕ)
    (hi : i < (getCol data "Close").length)
    (hw : i + 1 < asWindow (getParam params "bb_period" 20) ∨
          i + 1 < asWindow (getParam params "rsi_period" 14)) :
    pget (getCol (mean_reversion sqrtf data params) "signal") i = PFloat.val 0 := by
  rw [mr_signal_elem sqrtf data params i hi]
  rcases hw with hw | hw
  · have hm : pget (rollingMean (getCol data "Close")
        (asWindow (getParam params "bb_period" 20))) i = PFloat.nan :=
      rollingMean_warmup hw
    have hupper : pget (colAdd
        (rollingMean (getCol data "Close") (asWindow (getParam params "bb_period" 20)))
        (colSmul (rollingStd sqrtf (getCol data "Close")
          (asWindow (getParam params "bb_period" 20))) (getParam params "bb_std" 2))) i =
        PFloat.nan := by
      rw [pget_colAdd (by rw [length_rollingMean]; exact hi), hm, nan_add]
    have hlower : pget (colSub
        (rollingMean (getCol data "Close") (asWindow (getParam params "bb_period" 20)))
        (colSmul (rollingStd sqrtf (getCol data "Close")
          (asWindow (getParam params "bb_period" 20))) (getParam params "bb_std" 2))) i =
        PFloat.nan := by
      rw [pget_colSub (by rw [length_rollingMean]; exact hi), hm, nan_sub]
    have h1 : pget (colSmul (colAdd
        (rollingMean (getCol data "Close") (asWindow (getParam params "bb_period" 20)))
        (colSmul (rollingStd sqrtf (getCol data "Close")
          (asWindow (getParam params "bb_period" 20))) (getParam params "bb_std" 2)))
        (99/100)) i = PFloat.nan := by
      rw [pget_colSmul (by rw [length_colAdd, length_rollingMean]; exact hi), hupper, nan_mul]
    have h2 : pget (colSmul (colSub
        (rollingMean (getCol data "Close") (asWindow (getParam params "bb_period" 20)))
        (colSmul (rollingStd sqrtf (getCol data "Close")
          (asWindow (getParam params "bb_period" 20))) (getParam params "bb_std" 2)))
        (101/100)) i = PFloat.nan := by
      rw [pget_colSmul (by rw [length_colSub, length_rollingMean]; exact hi), hlower, nan_mul]
    simp [h1, h2, geb_nan_right, leb_nan_right]
  · have hr : pget (rsiCol (getCol data "Close")
        (asWindow (getParam params "rsi_period" 14))) i = PFloat.nan := rsi_warmup hw
    simp [hr, geb_nan_left, leb_nan_left]

theorem warmup_momentum (data : Frame) (params : Option Params) (i : ℕ)
    (hi : i < (getCol data "Close").length)
    (hw : i < asWindow (getParam params "lookback_period" 20)) :
    pget (getCol (momentum data params) "signal") i = PFloat.val 0 := by
  rw [momentum_signal_elem data params i hi]
  simp [pctChange_warmup hw, ltb_nan_left, gtb_nan_left]

theorem warmup_bb (sqrtf : ℚ → ℚ) (data : Frame) (params : Option Params) (i : ℕ)
    (hi : i < (getCol data "Close").length)
    (hw : i + 1 < asWindow (getParam params "period" 20)) :
    pget (getCol (bollinger_bands sqrtf data params) "signal") i = PFloat.val 0 := by
  rw [bb_signal_elem sqrtf data params i hi]
  have hm : pget (rollingMean (getCol data "Close")
      (asWindow (getParam params "period" 20))) i = PFloat.nan := rollingMean_warmup hw
  have hupper : pget (colAdd
      (rollingMean (getCol data "Close") (asWindow (getParam params "period" 20)))
      (colSmul (rollingStd sqrtf (getCol data "Close")
        (asWindow (getParam params "period" 20))) (getParam params "std" 2))) i =
      PFloat.nan := by
    rw [pget_colAdd (by rw [length_rollingMean]; exact hi), hm, nan_add]
  have hlower : pget (colSub
      (rollingMean (getCol data "Close") (asWindow (getParam params "period" 20)))
      (colSmul (rollingStd sqrtf (getCol data "Close")
        (asWindow (getParam params "period" 20))) (getParam params "std" 2))) i =
      PFloat.nan := by
    rw [pget_colSub (by rw [length_rollingMean]; exact hi), hm, nan_sub]
  simp [hupper, hlower, geb_nan_right, leb_nan_right]

theorem warmup_rsidiv (data : Frame) (params : Option Params) (i : ℕ)
    (hi : i < (getCol data "Close").length)
    (hw : i + 1 < asWindow (getParam params "period" 14) ∨
          i < asWindow (getParam params "divergence_period" 20)) :
    pget (getCol (rsi_divergence data params) "signal") i = PFloat.val 0 := by
  rw [rsidiv_signal_elem data params i hi]
  rcases hw with hw | hw
  · simp [rsi_warmup hw, ltb_nan_left, gtb_nan_left]
  · simp [pshift_warmup hw, ltb_nan_right, gtb_nan_right]

theorem warmup_macd (data : Frame) (params : Option Params)
    (hn : 0 < (getCol data "Close").length) :
    pget (getCol (macd_crossover data params) "signal") 0 = PFloat.val 0 := by
  rw [macd_signal_elem data params 0 hn]
  simp [pshift_warmup (show (0:ℕ) < 1 by norm_num), leb_nan_left, geb_nan_left]


/-! ## Claim theorems -/

/-- A tiny concrete frame used by the concrete witnesses below. -/
def exFrame : Frame := [("Close", [PFloat.val 1, PFloat.val 2, PFloat.val 3])]

/-- C9: for the moving-average crossover strategy, at every bar where both
moving averages are defined (finite values `a` and `b`), the emitted signal
matches the sign of `fastMA − slowMA`: `+1` when `a > b`, `−1` when `a < b`,
and `0` when they are equal. -/
theorem C9_mac_sign_matches_ma_difference (data : Frame) (params : Option Params)
    (i : ℕ) (a b : ℚ)
    (hfast : pget (rollingMean (getCol data "Close")
      (asWindow (getParam params "fast_period" 10))) i = PFloat.val a)
    (hslow : pget (rollingMean (getCol data "Close")
      (asWindow (getParam params "slow_period" 20))) i = PFloat.val b) :
    pget (getCol (moving_average_crossover data params) "signal") i =
      PFloat.val (if b < a then 1 else if a < b then -1 else 0) := by
  have hi : i < (getCol data "Close").length := by
    by_contra hi
    rw [rollingMean_oob hi] at hfast
    exact PFloat.noConfusion hfast
  rw [mac_signal_elem data params i hi]
  simp only [hfast, hslow]
  by_cases h1 : a < b
  · have h2 : ¬ b < a := not_lt_of_gt h1
    simp [PFloat.ltb, PFloat.gtb, h1, h2]
  · by_cases h2 : b < a
    · simp [PFloat.ltb, PFloat.gtb, h1, h2]
    · simp [PFloat.ltb, PFloat.gtb, h1, h2]

/-- Witness for C9 at a concrete input: prices `[1, 2, 3]`, fast window 1,
slow window 2, bar 1, where `fastMA = 2 > 3/2 = slowMA` gives signal `+1`. -/
theorem C9_witness :
    pget (getCol (moving_average_crossover exFrame
      (some [("fast_period", 1), ("slow_period", 2)])) "signal") 1 = PFloat.val 1 :=
  (C9_mac_sign_matches_ma_difference exFrame
    (some [("fast_period", 1), ("slow_period", 2)]) 1 2 (3/2)
    (by norm_num +decide [exFrame, getCol, rollingMean, colFn, psum, pget, List.lookup,
      List.range_succ, PFloat.div, PFloat.add, asWindow, getParam, beq_eq_decide, Int.toNat, List.take_succ_cons, List.foldl])
    (by norm_num +decide [exFrame, getCol, rollingMean, colFn, psum, pget, List.lookup,
      List.range_succ, PFloat.div, PFloat.add, asWindow, getParam, beq_eq_decide, Int.toNat, List.take_succ_cons, List.foldl])).trans
    (by norm_num)

/-- C8: for every strategy, a bar whose required indicator is still inside its
warm-up window (undefined, i.e. NaN) gets signal 0 and no error is raised:
comparisons against NaN evaluate false, so the default 0 written by
`data['signal'] = 0` survives.  For the moving-average crossover either
moving average may be undefined; for mean reversion either the Bollinger
band or the RSI; for momentum the `pct_change` lookback; for Bollinger bands
the band itself; for RSI divergence the RSI or the shifted comparison bar;
MACD's EMAs are defined from bar 0, but bar 0's `shift(1)` comparison is
undefined, giving signal 0 there. -/
theorem C8_warmup_signal_zero :
    (∀ (data : Frame) (params : Option Params) (i : ℕ),
      i < (getCol data "Close").length →
      (i + 1 < asWindow (getParam params "fast_period" 10) ∨
       i + 1 < asWindow (getParam params "slow_period" 20)) →
      pget (getCol (moving_average_crossover data params) "signal") i = PFloat.val 0) ∧
    (∀ (sqrtf : ℚ → ℚ) (data : Frame) (params : Option Params) (i : ℕ),
      i < (getCol data "Close").length →
      (i + 1 < asWindow (getParam params "bb_period" 20) ∨
       i + 1 < asWindow (getParam params "rsi_period" 14)) →
      pget (getCol (mean_reversion sqrtf data params) "signal") i = PFloat.val 0) ∧
    (∀ (data : Frame) (params : Option Params) (i : ℕ),
      i < (getCol data "Close").length →
      i < asWindow (getParam params "lookback_period" 20) →
      pget (getCol (momentum data params) "signal") i = PFloat.val 0) ∧
    (∀ (sqrtf : ℚ → ℚ) (data : Frame) (params : Option Params) (i : ℕ),
      i < (getCol data "Close").length →
      i + 1 < asWindow (getParam params "period" 20) →
      pget (getCol (bollinger_bands sqrtf data params) "signal") i = PFloat.val 0) ∧
    (∀ (data : Frame) (params : Option Params) (i : ℕ),
      i < (getCol data "Close").length →
      (i + 1 < asWindow (getParam params "period" 14) ∨
       i < asWindow (getParam params "divergence_period" 20)) →
      pget (getCol (rsi_divergence data params) "signal") i = PFloat.val 0) ∧
    (∀ (data : Frame) (params : Option Params),
      0 < (getCol data "Close").length →
      pget (getCol (macd_crossover data params) "signal") 0 = PFloat.val 0) :=
  ⟨warmup_mac, warmup_mr, warmup_momentum, warmup_bb, warmup_rsidiv, warmup_macd⟩

/-- Witness for C8: on the concrete 3-bar frame with default parameters, the
moving-average crossover, mean reversion and MACD crossover all emit signal 0
at bar 0. -/
theorem C8_witness :
    pget (getCol (moving_average_crossover exFrame none) "signal") 0 = PFloat.val 0 ∧
    pget (getCol (mean_reversion (fun q => q) exFrame none) "signal") 0 = PFloat.val 0 ∧
    pget (getCol (macd_crossover exFrame none) "signal") 0 = PFloat.val 0 :=
  ⟨C8_warmup_signal_zero.1 exFrame none 0 (by norm_num [exFrame, getCol, List.lookup])
      (Or.inl (by norm_num [asWindow, getParam])),
   C8_warmup_signal_zero.2.1 (fun q => q) exFrame none 0
      (by norm_num [exFrame, getCol, List.lookup])
      (Or.inl (by norm_num [asWindow, getParam])),
   C8_warmup_signal_zero.2.2.2.2.2 exFrame none
      (by norm_num [exFrame, getCol, List.lookup])⟩

/-- C2: per-bar trade semantics of the simulator, for a bar with positive
close price and non-negative cash (the regime every actual run stays in,
where Python `int()` truncation and `floor` agree).  With signal `+1` and no
position: the planned share count is `⌊cash × 0.95 / p⌋`; if it is positive,
cash decreases by exactly `shares × p × (1 + commission + slippage)` and a
BUY trade is appended, otherwise nothing changes.  With signal `−1` and a
positive position: cash increases by exactly `shares × p × (1 − commission −
slippage)`, a SELL trade is appended, and the position is closed.  In every
other case no trade occurs. -/
theorem C2_per_bar_trade_semantics (cfg : SimCfg) (i : ℕ) (st : SimState)
    (p : ℚ) (sg : ℤ) (hp : 0 < p) (hc : 0 ≤ st.capital) :
    (sg = 1 ∧ st.shares = 0 →
      ((0 < ⌊st.capital * (95/100) / p⌋ →
        (stepBar cfg i st (p, sg)).shares = ⌊st.capital * (95/100) / p⌋ ∧
        (stepBar cfg i st (p, sg)).capital =
          st.capital - (⌊st.capital * (95/100) / p⌋ : ℚ) * p *
            (1 + cfg.commission + cfg.slippage) ∧
        (stepBar cfg i st (p, sg)).trades =
          st.trades ++ [⟨i, Side.buy, ⌊st.capital * (95/100) / p⌋, p,
            (⌊st.capital * (95/100) / p⌋ : ℚ) * p * (1 + cfg.commission + cfg.slippage),
            st.capital - (⌊st.capital * (95/100) / p⌋ : ℚ) * p *
              (1 + cfg.commission + cfg.slippage) +
              (⌊st.capital * (95/100) / p⌋ : ℚ) * p⟩]) ∧
       (⌊st.capital * (95/100) / p⌋ ≤ 0 →
        (stepBar cfg i st (p, sg)).shares = st.shares ∧
        (stepBar cfg i st (p, sg)).capital = st.capital ∧
        (stepBar cfg i st (p, sg)).trades = st.trades))) ∧
    (sg = -1 ∧ 0 < st.shares →
      (stepBar cfg i st (p, sg)).capital =
        st.capital + (st.shares : ℚ) * p * (1 - cfg.commission - cfg.slippage) ∧
      (stepBar cfg i st (p, sg)).shares = 0 ∧
      (stepBar cfg i st (p, sg)).trades =
        st.trades ++ [⟨i, Side.sell, st.shares, p,
          (st.shares : ℚ) * p * (1 - cfg.commission - cfg.slippage),
          st.capital + (st.shares : ℚ) * p * (1 - cfg.commission - cfg.slippage)⟩]) ∧
    (¬ (sg = 1 ∧ st.shares = 0) → ¬ (sg = -1 ∧ 0 < st.shares) →
      (stepBar cfg i st (p, sg)).capital = st.capital ∧
      (stepBar cfg i st (p, sg)).shares = st.shares ∧
      (stepBar cfg i st (p, sg)).trades = st.trades) := by
  have hq : 0 ≤ st.capital * (95/100) / p := by positivity
  have hpy : pyInt (st.capital * (95/100) / p) = ⌊st.capital * (95/100) / p⌋ := if_pos hq
  refine ⟨?_, ?_, ?_⟩
  · intro hb
    have hb' : ((p, sg).2 = 1 ∧ st.shares = 0) := hb
    constructor
    · intro hpos
      simp only [stepBar, if_pos hb', hpy, if_pos hpos]
      exact ⟨trivial, trivial, trivial⟩
    · intro hnp
      have hneg : ¬ 0 < pyInt (st.capital * (95/100) / p) := by
        rw [hpy]; omega
      simp only [stepBar, if_pos hb', if_neg hneg]
      exact ⟨trivial, trivial, trivial⟩
  · rintro ⟨hs1, hs2⟩
    have h1 : ¬ ((p, sg).2 = 1 ∧ st.shares = 0) := by
      rintro ⟨ha, -⟩
      have ha' : sg = 1 := ha
      rw [hs1] at ha'
      exact absurd ha' (by decide)
    have h2 : ((p, sg).2 = -1 ∧ 0 < st.shares) := ⟨hs1, hs2⟩
    simp only [stepBar, if_neg h1, if_pos h2]
    exact ⟨trivial, trivial, trivial⟩
  · intro hb hs
    have h1 : ¬ ((p, sg).2 = 1 ∧ st.shares = 0) := hb
    have h2 : ¬ ((p, sg).2 = -1 ∧ 0 < st.shares) := hs
    simp only [stepBar, if_neg h1, if_neg h2]
    exact ⟨trivial, trivial, trivial⟩

/-- Witness for C2: one BUY step at price 10 with cash 100000 and default
fees buys `⌊100000 × 0.95 / 10⌋ = 9500` shares and leaves cash
`100000 − 9500 × 10 × 1.0015 = 4857.5`. -/
theorem C2_witness :
    (stepBar ⟨100000, 1/1000, 1/2000⟩ 0 ⟨100000, 0, [], [100000], []⟩ (10, 1)).shares = 9500 ∧
    (stepBar ⟨100000, 1/1000, 1/2000⟩ 0 ⟨100000, 0, [], [100000], []⟩ (10, 1)).capital = 9715/2 := by
  have h := ((C2_per_bar_trade_semantics ⟨100000, 1/1000, 1/2000⟩ 0
      ⟨100000, 0, [], [100000], []⟩ 10 1 (by norm_num)
      (by show (0:ℚ) ≤ 100000; norm_num)).1 ⟨rfl, rfl⟩).1
    (by show (0:ℤ) < ⌊(100000 : ℚ) * (95/100) / 10⌋; norm_num)
  refine ⟨h.1.trans ?_, h.2.1.trans ?_⟩
  · show ⌊(100000 : ℚ) * (95/100) / 10⌋ = 9500
    norm_num
  · show (100000 : ℚ) - (⌊(100000 : ℚ) * (95/100) / 10⌋ : ℚ) * 10 * (1 + 1/1000 + 1/2000) = 9715/2
    norm_num

theorem execute_backtest_trades (sqrtf : ℚ → ℚ) (d : List ℚ) (s : List (ℚ × ℤ))
    (cfg : SimCfg) :
    (execute_backtest sqrtf d s cfg).trades =
      (liquidate cfg d s (runLoop cfg 0 (initState cfg) s)).trades := rfl

theorem execute_backtest_equity (sqrtf : ℚ → ℚ) (d : List ℚ) (s : List (ℚ × ℤ))
    (cfg : SimCfg) :
    (execute_backtest sqrtf d s cfg).equity =
      (runLoop cfg 0 (initState cfg) s).equity :=
  liquidate_equity cfg d s (runLoop cfg 0 (initState cfg) s)

/-- C1: throughout every run the share accumulator is a non-negative integer;
the trade log of the full backtest strictly alternates BUY, SELL, BUY, … and
has even length (every BUY is closed by a SELL, so the log ends flat); and
when shares remain after the last bar a terminal SELL at
`data['Close'].iloc[-1]` with the standard proceeds formula is appended. -/
theorem C1_simulator_invariants (sqrtf : ℚ → ℚ) (dataCloses : List ℚ)
    (signals : List (ℚ × ℤ)) (cfg : SimCfg) :
    (∀ k, 0 ≤ (simAfter cfg signals k).shares) ∧
    altSides Side.buy (execute_backtest sqrtf dataCloses signals cfg).trades = true ∧
    (execute_backtest sqrtf dataCloses signals cfg).trades.length % 2 = 0 ∧
    (0 < (runLoop cfg 0 (initState cfg) signals).shares →
      (execute_backtest sqrtf dataCloses signals cfg).trades =
        (runLoop cfg 0 (initState cfg) signals).trades ++
          [⟨signals.length, Side.sell, (runLoop cfg 0 (initState cfg) signals).shares,
            dataCloses.getLastD 0,
            ((runLoop cfg 0 (initState cfg) signals).shares : ℚ) * (dataCloses.getLastD 0) *
              (1 - cfg.commission - cfg.slippage),
            (runLoop cfg 0 (initState cfg) signals).capital +
              ((runLoop cfg 0 (initState cfg) signals).shares : ℚ) * (dataCloses.getLastD 0) *
                (1 - cfg.commission - cfg.slippage)⟩]) := by
  have hInv : SimInv (runLoop cfg 0 (initState cfg) signals) :=
    runLoop_siminv cfg signals 0 (initState cfg) (initState_siminv cfg)
  obtain ⟨h1, h2, h3⟩ := hInv
  rw [execute_backtest_trades]
  refine ⟨?_, ?_, ?_, ?_⟩
  · intro k
    exact (runLoop_siminv cfg (signals.take k) 0 (initState cfg) (initState_siminv cfg)).1
  · simp only [liquidate]
    split_ifs with h
    · have hnz : ¬ (runLoop cfg 0 (initState cfg) signals).shares = 0 :=
        fun hc => absurd (hc ▸ h) (lt_irrefl 0)
      rw [altSides_append, h2, if_neg (by rw [h3, if_neg hnz]; omega)]
      simp [Side.other]
    · exact h2
  · simp only [liquidate]
    split_ifs with h
    · have hnz : ¬ (runLoop cfg 0 (initState cfg) signals).shares = 0 :=
        fun hc => absurd (hc ▸ h) (lt_irrefl 0)
      have := h3
      rw [if_neg hnz] at this
      simp only [List.length_append, List.length_cons, List.length_nil]
      omega
    · have hz : (runLoop cfg 0 (initState cfg) signals).shares = 0 := le_antisymm (not_lt.mp h) h1
      rw [h3, if_pos hz]
  · intro h
    simp only [liquidate, if_pos h]

/-- Witness for C1 on a one-bar run that ends with an open position: shares
stay non-negative, the trade log alternates, and the terminal SELL is
appended since 9500 shares remain after the loop. -/
theorem C1_witness :
    0 ≤ (simAfter ⟨100000, 1/1000, 1/2000⟩ [((10:ℚ), (1:ℤ))] 1).shares ∧
    altSides Side.buy
      (execute_backtest (fun q => q) [10] [((10:ℚ), (1:ℤ))]
        ⟨100000, 1/1000, 1/2000⟩).trades = true ∧
    (execute_backtest (fun q => q) [10] [((10:ℚ), (1:ℤ))]
        ⟨100000, 1/1000, 1/2000⟩).trades =
      (runLoop ⟨100000, 1/1000, 1/2000⟩ 0 (initState ⟨100000, 1/1000, 1/2000⟩)
          [((10:ℚ), (1:ℤ))]).trades ++
        [⟨[((10:ℚ), (1:ℤ))].length, Side.sell,
          (runLoop ⟨100000, 1/1000, 1/2000⟩ 0 (initState ⟨100000, 1/1000, 1/2000⟩)
            [((10:ℚ), (1:ℤ))]).shares,
          [(10:ℚ)].getLastD 0,
          ((runLoop ⟨100000, 1/1000, 1/2000⟩ 0 (initState ⟨100000, 1/1000, 1/2000⟩)
            [((10:ℚ), (1:ℤ))]).shares : ℚ) * ([(10:ℚ)].getLastD 0) * (1 - 1/1000 - 1/2000),
          (runLoop ⟨100000, 1/1000, 1/2000⟩ 0 (initState ⟨100000, 1/1000, 1/2000⟩)
            [((10:ℚ), (1:ℤ))]).capital +
            ((runLoop ⟨100000, 1/1000, 1/2000⟩ 0 (initState ⟨100000, 1/1000, 1/2000⟩)
              [((10:ℚ), (1:ℤ))]).shares : ℚ) * ([(10:ℚ)].getLastD 0) *
              (1 - 1/1000 - 1/2000)⟩] := by
  have h := C1_simulator_invariants (fun q => q) [10] [((10:ℚ), (1:ℤ))]
    ⟨100000, 1/1000, 1/2000⟩
  have hpos : 0 < (runLoop ⟨100000, 1/1000, 1/2000⟩ 0
      (initState ⟨100000, 1/1000, 1/2000⟩) [((10:ℚ), (1:ℤ))]).shares := by
    norm_num [runLoop, stepBar, initState, pyInt]
  exact ⟨h.1 1, h.2.1, h.2.2.2 hpos⟩

/-- C3: the equity curve of a backtest over `N` bars has exactly `N + 1`
entries, starts with the initial capital, and the entry appended after bar
`i` is the post-trade cash plus post-trade shares marked at bar `i`'s close
price. -/
theorem C3_equity_curve (sqrtf : ℚ → ℚ) (dataCloses : List ℚ)
    (signals : List (ℚ × ℤ)) (cfg : SimCfg) :
    (execute_backtest sqrtf dataCloses signals cfg).equity.length = signals.length + 1 ∧
    (execute_backtest sqrtf dataCloses signals cfg).equity.getD 0 0 = cfg.initial_capital ∧
    (∀ i, i < signals.length →
      (execute_backtest sqrtf dataCloses signals cfg).equity.getD (i + 1) 0 =
        (simAfter cfg signals (i + 1)).capital +
        ((simAfter cfg signals (i + 1)).shares : ℚ) * (signals.getD i (0, 0)).1) := by
  rw [execute_backtest_equity, runLoop_eq_simAfter,
      simAfter_equity cfg signals signals.length (le_refl _)]
  refine ⟨?_, ?_, ?_⟩
  · simp
  · rfl
  · intro i hi
    rw [List.getD_cons_succ, List.getD_eq_getElem?_getD, List.getElem?_map,
        getElem?_range_eq, if_pos hi]
    rfl

/-- Witness for C3 on the one-bar run: two equity entries, seeded with
100000, and the post-bar entry marks the bought shares at the close. -/
theorem C3_witness :
    (execute_backtest (fun q => q) [10] [((10:ℚ), (1:ℤ))]
        ⟨100000, 1/1000, 1/2000⟩).equity.length = 2 ∧
    (execute_backtest (fun q => q) [10] [((10:ℚ), (1:ℤ))]
        ⟨100000, 1/1000, 1/2000⟩).equity.getD 1 0 =
      (simAfter ⟨100000, 1/1000, 1/2000⟩ [((10:ℚ), (1:ℤ))] 1).capital +
      ((simAfter ⟨100000, 1/1000, 1/2000⟩ [((10:ℚ), (1:ℤ))] 1).shares : ℚ) *
        ([((10:ℚ), (1:ℤ))].getD 0 (0, 0)).1 := by
  have h := C3_equity_curve (fun q => q) [10] [((10:ℚ), (1:ℤ))] ⟨100000, 1/1000, 1/2000⟩
  exact ⟨h.1, h.2.2 0 (by norm_num)⟩

/-- The last equity value of a non-empty run marks the final state at the
last signal bar's close. -/
theorem runLoop_equity_last (cfg : SimCfg) (signals : List (ℚ × ℤ))
    (hne : signals ≠ []) :
    (runLoop cfg 0 (initState cfg) signals).equity.getLastD 0 =
      (runLoop cfg 0 (initState cfg) signals).capital +
      ((runLoop cfg 0 (initState cfg) signals).shares : ℚ) * (signals.getLastD (0, 0)).1 := by
  have hn : 0 < signals.length := List.length_pos.mpr hne
  rw [runLoop_eq_simAfter, simAfter_equity cfg signals signals.length (le_refl _),
      List.getLastD_cons]
  have hmap : ((List.range signals.length).map (fun j =>
      (simAfter cfg signals (j + 1)).capital +
      ((simAfter cfg signals (j + 1)).shares : ℚ) * (signals.getD j (0, 0)).1)).getLastD
        cfg.initial_capital =
      (simAfter cfg signals signals.length).capital +
      ((simAfter cfg signals signals.length).shares : ℚ) *
        (signals.getD (signals.length - 1) (0, 0)).1 := by
    rw [List.getLastD_eq_getLast?, List.getLast?_eq_getElem?, List.getElem?_map,
        List.length_map, List.length_range, getElem?_range_eq, if_pos (by omega)]
    simp only [Option.map_some', Option.getD_some]
    have : signals.length - 1 + 1 = signals.length := by omega
    rw [this]
  rw [hmap]
  have hlast : signals.getD (signals.length - 1) (0, 0) = signals.getLastD (0, 0) := by
    rw [List.getD_eq_getElem?_getD, List.getLastD_eq_getLast?, List.getLast?_eq_getElem?]
  rw [hlast]

/-- C5: when shares remain after the last bar, the forced liquidation does
not extend or revise the equity curve: the reported final capital is the
fee-free mark-to-market value `cash + shares × finalClose`, the reported
total return is computed from that value (so both exclude the terminal
SELL's commission and slippage), while the terminal SELL trade itself
records capital `cash + shares × finalClose × (1 − commission −
slippage)`. -/
theorem C5_terminal_liquidation_excluded_from_equity (sqrtf : ℚ → ℚ)
    (dataCloses : List ℚ) (signals : List (ℚ × ℤ)) (cfg : SimCfg)
    (hne : signals ≠ [])
    (hpos : 0 < (runLoop cfg 0 (initState cfg) signals).shares) :
    (execute_backtest sqrtf dataCloses signals cfg).equity =
      (runLoop cfg 0 (initState cfg) signals).equity ∧
    (execute_backtest sqrtf dataCloses signals cfg).summary.final_capital =
      (runLoop cfg 0 (initState cfg) signals).capital +
      ((runLoop cfg 0 (initState cfg) signals).shares : ℚ) *
        (signals.getLastD (0, 0)).1 ∧
    (execute_backtest sqrtf dataCloses signals cfg).summary.total_return =
      (((runLoop cfg 0 (initState cfg) signals).capital +
        ((runLoop cfg 0 (initState cfg) signals).shares : ℚ) *
          (signals.getLastD (0, 0)).1 - cfg.initial_capital) /
        cfg.initial_capital) * 100 ∧
    (execute_backtest sqrtf dataCloses signals cfg).trades.getLastD
        ⟨0, Side.buy, 0, 0, 0, 0⟩ =
      ⟨signals.length, Side.sell, (runLoop cfg 0 (initState cfg) signals).shares,
        dataCloses.getLastD 0,
        ((runLoop cfg 0 (initState cfg) signals).shares : ℚ) * (dataCloses.getLastD 0) *
          (1 - cfg.commission - cfg.slippage),
        (runLoop cfg 0 (initState cfg) signals).capital +
          ((runLoop cfg 0 (initState cfg) signals).shares : ℚ) * (dataCloses.getLastD 0) *
            (1 - cfg.commission - cfg.slippage)⟩ := by
  have hfinal : (execute_backtest sqrtf dataCloses signals cfg).summary.final_capital =
      (runLoop cfg 0 (initState cfg) signals).equity.getLastD 0 := by
    show (execute_backtest sqrtf dataCloses signals cfg).equity.getLastD 0 =
      (runLoop cfg 0 (initState cfg) signals).equity.getLastD 0
    rw [execute_backtest_equity]
  refine ⟨execute_backtest_equity sqrtf dataCloses signals cfg, ?_, ?_, ?_⟩
  · rw [hfinal, runLoop_equity_last cfg signals hne]
  · show ((execute_backtest sqrtf dataCloses signals cfg).equity.getLastD 0 -
        cfg.initial_capital) / cfg.initial_capital * 100 = _
    rw [execute_backtest_equity, runLoop_equity_last cfg signals hne]
  · rw [execute_backtest_trades]
    simp only [liquidate, if_pos hpos]
    rw [List.getLastD_concat]

/-- Witness for C5 on the one-bar run ending with 9500 open shares. -/
theorem C5_witness :
    (execute_backtest (fun q => q) [10] [((10:ℚ), (1:ℤ))]
        ⟨100000, 1/1000, 1/2000⟩).equity =
      (runLoop ⟨100000, 1/1000, 1/2000⟩ 0 (initState ⟨100000, 1/1000, 1/2000⟩)
        [((10:ℚ), (1:ℤ))]).equity ∧
    (execute_backtest (fun q => q) [10] [((10:ℚ), (1:ℤ))]
        ⟨100000, 1/1000, 1/2000⟩).summary.final_capital =
      (runLoop ⟨100000, 1/1000, 1/2000⟩ 0 (initState ⟨100000, 1/1000, 1/2000⟩)
          [((10:ℚ), (1:ℤ))]).capital +
        ((runLoop ⟨100000, 1/1000, 1/2000⟩ 0 (initState ⟨100000, 1/1000, 1/2000⟩)
          [((10:ℚ), (1:ℤ))]).shares : ℚ) * ([((10:ℚ), (1:ℤ))].getLastD (0, 0)).1 := by
  have h := C5_terminal_liquidation_excluded_from_equity (fun q => q) [10]
    [((10:ℚ), (1:ℤ))] ⟨100000, 1/1000, 1/2000⟩ (List.cons_ne_nil _ _)
    (by norm_num [runLoop, stepBar, initState, pyInt])
  exact ⟨h.1, h.2.1⟩

/-- C7: the win rate is the number of SELL trades with positive proceeds over
the number of SELL trades (0 with no SELLs); in particular a lone
BUY-then-SELL log with any positive-proceeds SELL has win rate 1 regardless
of the entry cost. -/
theorem C7_win_rate_formula (sqrtf : ℚ → ℚ) (equity : List ℚ) (trades : List Trade)
    (positions : List PosRec) (cfg : SimCfg) :
    ((calculate_performance_metrics sqrtf equity trades positions cfg).metrics.win_rate =
      (if 0 < (trades.filter (fun t => t.side = Side.sell)).length then
        (((trades.filter (fun t => t.side = Side.sell)).filter
            (fun t => 0 < t.amount)).length : ℚ) /
          ((trades.filter (fun t => t.side = Side.sell)).length : ℚ)
      else 0)) ∧
    (∀ (bt : Trade) (d : ℕ) (sh : ℤ) (p c s cap : ℚ),
      bt.side = Side.buy → 0 < sh → 0 < p → c + s < 1 →
      winRateOf [bt, ⟨d, Side.sell, sh, p, (sh : ℚ) * p * (1 - c - s), cap⟩] = 1) := by
  constructor
  · rfl
  · intro bt d sh p c s cap hb hsh hp hcs
    have hprc : 0 < (sh : ℚ) * p * (1 - c - s) := by
      have h1 : (0 : ℚ) < (sh : ℚ) := by exact_mod_cast hsh
      have h2 : (0 : ℚ) < 1 - c - s := by linarith
      positivity
    have hbn : ¬ (bt.side = Side.sell) := by rw [hb]; decide
    simp [winRateOf, hbn, hprc]

/-- Witness for C7: a BUY with cost 1000 followed by a SELL with proceeds 10
(a large loss against cost basis) still counts as a 100% win rate. -/
theorem C7_witness :
    winRateOf [⟨0, Side.buy, 1, 100, 1000, 0⟩,
      ⟨1, Side.sell, 1, 10, (1 : ℚ) * 10 * (1 - 0 - 0), 0⟩] = 1 :=
  (C7_win_rate_formula (fun q => q) [] [] [] {}).2
    ⟨0, Side.buy, 1, 100, 1000, 0⟩ 1 1 10 0 0 0 rfl
    (by norm_num) (by norm_num) (by norm_num)

/-- The caller's frame after `execute_strategy`: mutated (in place, in
Python) by the dispatched strategy on success, untouched when the identifier
lookup fails, because the `ValueError` is raised before any strategy
computation starts. -/
def executeStrategyFrame (sqrtf : ℚ → ℚ) (name : String) (data : Frame)
    (params : Option Params) : Frame :=
  match execute_strategy sqrtf name data params with
  | Except.ok f => f
  | Except.error _ => data

/-- C10: running a strategy by an identifier outside the six recognized ids
fails with the `ValueError` (InvalidArgument), and the input frame is left
unchanged because no strategy function is invoked. -/
theorem C10_unknown_strategy_rejected (sqrtf : ℚ → ℚ) (name : String)
    (data : Frame) (params : Option Params) (h : name ∉ strategyIds) :
    execute_strategy sqrtf name data params =
      Except.error ("策略 " ++ name ++ " 不存在") ∧
    executeStrategyFrame sqrtf name data params = data := by
  simp only [strategyIds, List.mem_cons, List.not_mem_nil, or_false, not_or] at h
  obtain ⟨h1, h2, h3, h4, h5, h6⟩ := h
  have he : execute_strategy sqrtf name data params =
      Except.error ("策略 " ++ name ++ " 不存在") := by
    simp only [execute_strategy, if_neg h1, if_neg h2, if_neg h3, if_neg h4,
      if_neg h5, if_neg h6]
  exact ⟨he, by rw [executeStrategyFrame, he]⟩

/-- Witness for C10: the identifier `"macd"` is not one of the six ids and is
rejected with the `ValueError` message, leaving the frame unchanged. -/
theorem C10_witness :
    execute_strategy (fun q => q) "macd" exFrame none =
      Except.error ("策略 " ++ "macd" ++ " 不存在") ∧
    executeStrategyFrame (fun q => q) "macd" exFrame none = exFrame :=
  C10_unknown_strategy_rejected (fun q => q) "macd" exFrame none (by decide)

/-- Counterexample for C4: strategies are not pure transforms of a read-only
input.  `moving_average_crossover` adds a `fast_ma` column to the frame the
caller passed in (in Python the returned frame IS the input object, mutated
in place), and a second call on the shared frame overwrites the `signal`
column computed by the first call: after running the (2, 3)-window crossover
on the frame returned by the (1, 2)-window crossover, the shared frame's
signal at bar 1 is 0, whereas the first call had set it to 1. -/
theorem C4_counterexample :
    hasCol (moving_average_crossover exFrame none) "fast_ma" = true ∧
    hasCol exFrame "fast_ma" = false ∧
    pget (getCol (moving_average_crossover exFrame
      (some [("fast_period", 1), ("slow_period", 2)])) "signal") 1 = PFloat.val 1 ∧
    pget (getCol (moving_average_crossover (moving_average_crossover exFrame
      (some [("fast_period", 1), ("slow_period", 2)]))
      (some [("fast_period", 2), ("slow_period", 3)])) "signal") 1 = PFloat.val 0 := by
  refine ⟨by decide, by decide, ?_, ?_⟩
  · norm_num +decide [moving_average_crossover, exFrame, getCol, setCol, locSet,
      rollingMean, colFn, psum, pget, pdiff, List.lookup, List.range_succ,
      PFloat.div, PFloat.add, PFloat.sub, PFloat.neg, PFloat.ltb, PFloat.gtb,
      asWindow, getParam, beq_eq_decide, Int.toNat, List.take_succ_cons, List.foldl]
  · norm_num +decide [moving_average_crossover, exFrame, getCol, setCol, locSet,
      rollingMean, colFn, psum, pget, pdiff, List.lookup, List.range_succ,
      PFloat.div, PFloat.add, PFloat.sub, PFloat.neg, PFloat.ltb, PFloat.gtb,
      asWindow, getParam, beq_eq_decide, Int.toNat, List.take_succ_cons, List.foldl]

/-- C4 as amended: each of the six strategies returns the same (mutated)
frame, adding or overwriting only its indicator, `signal`, and `position`
columns; the price data (the `Close` column every strategy reads) is never
modified, so the signal values of a later call on a shared frame are
computed from the same prices — but the shared frame itself is mutated, so
calls sharing one input do interfere (see the counterexample). -/
theorem C4_amended_close_column_preserved :
    (∀ (data : Frame) (params : Option Params),
      getCol (moving_average_crossover data params) "Close" = getCol data "Close") ∧
    (∀ (sqrtf : ℚ → ℚ) (data : Frame) (params : Option Params),
      getCol (mean_reversion sqrtf data params) "Close" = getCol data "Close") ∧
    (∀ (data : Frame) (params : Option Params),
      getCol (momentum data params) "Close" = getCol data "Close") ∧
    (∀ (sqrtf : ℚ → ℚ) (data : Frame) (params : Option Params),
      getCol (bollinger_bands sqrtf data params) "Close" = getCol data "Close") ∧
    (∀ (data : Frame) (params : Option Params),
      getCol (rsi_divergence data params) "Close" = getCol data "Close") ∧
    (∀ (data : Frame) (params : Option Params),
      getCol (macd_crossover data params) "Close" = getCol data "Close") := by
  refine ⟨?_, ?_, ?_, ?_, ?_, ?_⟩
  · intro data params
    simp only [moving_average_crossover, getCol_setCol]
    norm_num +decide
  · intro sqrtf data params
    simp only [mean_reversion, getCol_setCol]
    norm_num +decide
  · intro data params
    simp only [momentum, getCol_setCol]
    norm_num +decide
  · intro sqrtf data params
    simp only [bollinger_bands, getCol_setCol]
    norm_num +decide
  · intro data params
    simp only [rsi_divergence, getCol_setCol]
    norm_num +decide
  · intro data params
    simp only [macd_crossover, getCol_setCol]
    norm_num +decide

/-- The `rsi` column written by `mean_reversion` is exactly `rsiCol` of the
close prices. -/
theorem mr_rsi_col (sqrtf : ℚ → ℚ) (data : Frame) (params : Option Params) :
    getCol (mean_reversion sqrtf data params) "rsi" =
      rsiCol (getCol data "Close") (asWindow (getParam params "rsi_period" 14)) := by
  simp only [mean_reversion, getCol_setCol]
  norm_num +decide

/-- Counterexample for C6's RSI conjunct: on a constant price series both the
average gain and the average loss are 0, `rs = 0/0` is NaN, and the NaN
propagates into the `rsi` column of `mean_reversion` — the code assigns no
explicit policy value for the zero-average-loss case. -/
theorem C6_counterexample :
    pget (rollingMean (rsiLoss [PFloat.val 10, PFloat.val 10, PFloat.val 10]) 2) 1 =
      PFloat.val 0 ∧
    pget (getCol (mean_reversion (fun q => q)
      [("Close", [PFloat.val 10, PFloat.val 10, PFloat.val 10])]
      (some [("rsi_period", 2)])) "rsi") 1 = PFloat.nan := by
  constructor
  · norm_num +decide [rollingMean, rsiLoss, pdiff, colFn, psum, pget, List.range_succ,
      PFloat.sub, PFloat.add, PFloat.neg, PFloat.div, PFloat.ltb,
      List.take_succ_cons, List.foldl]
  · rw [mr_rsi_col]
    norm_num +decide [rsiCol, rsiRs, rsiGain, rsiLoss, rollingMean, pdiff, colDiv,
      colFn, psum, pget, getCol, List.lookup, List.range_succ, PFloat.sub, PFloat.add,
      PFloat.neg, PFloat.div, PFloat.ltb, PFloat.gtb, asWindow, getParam,
      beq_eq_decide, Int.toNat, List.take_succ_cons, List.foldl]

/-- C6 as amended: the analyzer's three ratio fallbacks are genuine explicit
branches — sharpe is 0 when volatility is 0, sortino is 0 when the downside
deviation is 0 (in particular when no negative daily return exists), calmar
is 0 when the max drawdown is 0.  The RSI, however, has no explicit
fallback: with zero average loss and positive average gain it evaluates to
100 through the float `+inf` limit of the formula, and with both averages
zero it is NaN (see the counterexample). -/
theorem C6_degenerate_fallbacks :
    (∀ (sqrtf : ℚ → ℚ) (equity : List ℚ) (trades : List Trade)
      (positions : List PosRec) (cfg : SimCfg),
      annVolatility sqrtf (dailyReturns equity) = 0 →
      (calculate_performance_metrics sqrtf equity trades positions cfg).metrics.sharpe_ratio = 0) ∧
    (∀ (sqrtf : ℚ → ℚ) (equity : List ℚ) (trades : List Trade)
      (positions : List PosRec) (cfg : SimCfg),
      downsideDevOf sqrtf (dailyReturns equity) = 0 →
      (calculate_performance_metrics sqrtf equity trades positions cfg).metrics.sortino_ratio = 0) ∧
    (∀ (sqrtf : ℚ → ℚ) (dr : List ℚ),
      dr.filter (fun r => r < 0) = [] → downsideDevOf sqrtf dr = 0) ∧
    (∀ (sqrtf : ℚ → ℚ) (equity : List ℚ) (trades : List Trade)
      (positions : List PosRec) (cfg : SimCfg),
      maxDrawdownOf equity = 0 →
      (calculate_performance_metrics sqrtf equity trades positions cfg).metrics.calmar_ratio = 0) ∧
    (∀ (close : List PFloat) (period i : ℕ) (g : ℚ),
      pget (rollingMean (rsiLoss close) period) i = PFloat.val 0 →
      pget (rollingMean (rsiGain close) period) i = PFloat.val g → 0 < g →
      pget (rsiCol close period) i = PFloat.val 100) ∧
    (∀ (close : List PFloat) (period i : ℕ),
      pget (rollingMean (rsiLoss close) period) i = PFloat.val 0 →
      pget (rollingMean (rsiGain close) period) i = PFloat.val 0 →
      pget (rsiCol close period) i = PFloat.nan) := by
  refine ⟨?_, ?_, ?_, ?_, ?_, ?_⟩
  · intro sqrtf equity trades positions cfg h
    simp only [calculate_performance_metrics]
    rw [h]
    norm_num
  · intro sqrtf equity trades positions cfg h
    simp only [calculate_performance_metrics]
    rw [h]
    norm_num
  · intro sqrtf dr h
    rw [downsideDevOf, h]
    norm_num
  · intro sqrtf equity trades positions cfg h
    simp only [calculate_performance_metrics]
    rw [h]
    norm_num
  · intro close period i g hl hg hgpos
    have hi : i < close.length := by
      by_contra hi
      have hoob : ¬ i < (rsiLoss close).length := by
        rw [rsiLoss, length_colFn]; exact hi
      rw [rollingMean_oob hoob] at hl
      exact PFloat.noConfusion hl
    have hrs : pget (rsiRs close period) i = PFloat.pinf := by
      rw [rsiRs, colDiv]
      have hlen : (rollingMean (rsiGain close) period).length = close.length := by
        rw [length_rollingMean, rsiGain, length_colFn]
      rw [pget_colFn_lt (by rw [hlen]; exact hi), hg, hl]
      simp [PFloat.div, hgpos]
    rw [rsiCol, pget_colFn_lt hi, hrs]
    simp [PFloat.add, PFloat.div, PFloat.sub, PFloat.neg]
  · intro close period i hl hg
    have hi : i < close.length := by
      by_contra hi
      have hoob : ¬ i < (rsiLoss close).length := by
        rw [rsiLoss, length_colFn]; exact hi
      rw [rollingMean_oob hoob] at hl
      exact PFloat.noConfusion hl
    have hrs : pget (rsiRs close period) i = PFloat.nan := by
      rw [rsiRs, colDiv]
      have hlen : (rollingMean (rsiGain close) period).length = close.length := by
        rw [length_rollingMean, rsiGain, length_colFn]
      rw [pget_colFn_lt (by rw [hlen]; exact hi), hg, hl]
      simp [PFloat.div]
    rw [rsiCol, pget_colFn_lt hi, hrs, add_nan, div_nan, sub_nan]

/-- Witness for the amended C6: a flat one-point equity curve has zero max
drawdown and hence calmar 0 by the explicit fallback, and a strictly rising
close series has zero average loss with positive average gain, giving RSI
100 through the `+inf` limit. -/
theorem C6_witness :
    (calculate_performance_metrics (fun q => q) [100000] [] []
      ⟨100000, 1/1000, 1/2000⟩).metrics.calmar_ratio = 0 ∧
    pget (rsiCol [PFloat.val 10, PFloat.val 11, PFloat.val 12] 2) 1 = PFloat.val 100 := by
  constructor
  · exact C6_degenerate_fallbacks.2.2.2.1 (fun q => q) [100000] [] []
      ⟨100000, 1/1000, 1/2000⟩
      (by norm_num [maxDrawdownOf, drawdowns, List.range_succ])
  · exact C6_degenerate_fallbacks.2.2.2.2.1 [PFloat.val 10, PFloat.val 11, PFloat.val 12]
      2 1 (1/2)
      (by norm_num +decide [rollingMean, rsiLoss, pdiff, colFn, psum, pget,
        List.range_succ, PFloat.sub, PFloat.add, PFloat.neg, PFloat.ltb, PFloat.div,
        List.take_succ_cons, List.foldl])
      (by norm_num +decide [rollingMean, rsiGain, pdiff, colFn, psum, pget,
        List.range_succ, PFloat.sub, PFloat.add, PFloat.neg, PFloat.gtb, PFloat.ltb, PFloat.div,
        List.take_succ_cons, List.foldl])
      (by norm_num)
